import Mathlib

/-!
The gcl pipeline (include/pipeline.h).

A shallow embedding of `gcl::Pipeline`, `gcl::StartablePipeline` and
`gcl::RunnablePipeline`, with the properties of the composition operators, of
the driver loop `run_internal`, of the thread-pool dispatch `run(pool)` and of
the completion fan-in `end_thread`.

Conventions of the embedding.

* A `tr1::function<R (A)>` is either empty (built from `NULL`) or a callable;
  calling an empty one throws `bad_function_call`.  A callable may itself throw.
* User supplied callables (the sink, the `OnEnd` callback) are opaque to the
  library: an invocation is recorded as an event in a trace.
* A `void` callable on the consumer side returns the list of values it handed
  to the user's sink; the driver loop records them as `sink` events.
* Mutable objects are threaded explicitly.  The object on which `run` is called
  is the root of the modelled object graph; its children live in `children_`.
* Loops that need not terminate take a fuel argument and report `running` with
  the state and the trace reached so far when the fuel is used up.
-/

namespace gcl

/-! ## Exceptions and function objects -/

/-- The C++ exceptions that can leave the code of `pipeline.h`. -/
inductive Exn where
  | std_exception
  | logic_error (what : String)
  | length_error
  | bad_function_call
  deriving DecidableEq, Repr

/-- A `tr1::function<R (A)>`: `none` is the empty function, `some g` a callable. -/
abbrev tr1_function (A R : Type) : Type := Option (A → Except Exn R)

/-- Invocation `f(a)` of a function object. -/
def tr1_function.call {A R : Type} (f : tr1_function A R) (a : A) : Except Exn R :=
  match f with
  | none => Except.error Exn.bad_function_call
  | some g => g a

/-- A function object holding a callable that returns normally on every input. -/
def tr1_function.of {A R : Type} (g : A → R) : tr1_function A R :=
  some (fun a => Except.ok (g a))

/-- The source function `chain`: `out_fn(intermediate_fn(in))`. -/
def chain {IN INTERMEDIATE OUT : Type} (intermediate_fn : tr1_function IN INTERMEDIATE)
    (out_fn : tr1_function INTERMEDIATE OUT) (x : IN) : Except Exn OUT :=
  match intermediate_fn.call x with
  | Except.error e => Except.error e
  | Except.ok m => out_fn.call m

/-- The source function `terminate`: `out_fn(intermediate_fn(in))` for a `void` consumer;
the result is the list of values handed to the sink. -/
def terminate {IN INTERMEDIATE V : Type} (intermediate_fn : tr1_function IN INTERMEDIATE)
    (out_fn : tr1_function INTERMEDIATE (List V)) (x : IN) : Except Exn (List V) :=
  match intermediate_fn.call x with
  | Except.error e => Except.error e
  | Except.ok m => out_fn.call m

/-! ## Pipeline -/

/-- Class `Pipeline<IN, OUT>`: the single field `fn_`. -/
structure Pipeline (IN OUT : Type) where
  fn_ : tr1_function IN OUT

/-- Constructor `Pipeline(function<OUT (IN)> fn)`. -/
def Pipeline.new {IN OUT : Type} (fn : tr1_function IN OUT) : Pipeline IN OUT :=
  { fn_ := fn }

/-- The protected default constructor `Pipeline() : fn_(NULL)`. -/
def Pipeline.default_new {IN OUT : Type} : Pipeline IN OUT :=
  { fn_ := none }

/-- Method `Pipeline::get_fn`. -/
def Pipeline.get_fn {IN OUT : Type} (p : Pipeline IN OUT) : tr1_function IN OUT :=
  p.fn_

/-- Method `Pipeline::Filter`: `bind(chain, fn_, filter, _1)` wrapped in a new Pipeline. -/
def Pipeline.Filter {IN OUT NEW_OUT : Type} (p : Pipeline IN OUT)
    (filter : tr1_function OUT NEW_OUT) : Pipeline IN NEW_OUT :=
  let chain_fn : tr1_function IN NEW_OUT := some (chain p.fn_ filter)
  Pipeline.new chain_fn

/-- Method `Pipeline::apply`. -/
def Pipeline.apply {IN OUT : Type} (p : Pipeline IN OUT) (x : IN) : Except Exn OUT :=
  p.fn_.call x

/-! ## StartablePipeline -/

/-- Class `StartablePipeline<IN, OUT, SOURCE>`: a Pipeline plus the field `source_`. -/
structure StartablePipeline (IN OUT SOURCE : Type) extends Pipeline IN OUT where
  source_ : SOURCE

/-- Constructor `StartablePipeline(const Pipeline& pipeline, SOURCE source)`. -/
def StartablePipeline.new {IN OUT SOURCE : Type} (pipeline : Pipeline IN OUT)
    (source : SOURCE) : StartablePipeline IN OUT SOURCE :=
  { fn_ := pipeline.fn_, source_ := source }

/-- Constructor `StartablePipeline(SOURCE source)`: the base is default constructed,
so `fn_` is the empty function. -/
def StartablePipeline.of_source {IN OUT SOURCE : Type} (source : SOURCE) :
    StartablePipeline IN OUT SOURCE :=
  { toPipeline := Pipeline.default_new, source_ := source }

/-- Method `Pipeline::Source`. -/
def Pipeline.Source {IN OUT SOURCE : Type} (p : Pipeline IN OUT) (source : SOURCE) :
    StartablePipeline IN OUT SOURCE :=
  StartablePipeline.new p source

/-- Method `StartablePipeline::get_source`. -/
def StartablePipeline.get_source {IN OUT SOURCE : Type} (s : StartablePipeline IN OUT SOURCE) :
    SOURCE :=
  s.source_

/-- Method `StartablePipeline::Filter`.  The source text is
`return StartablePipeline<IN, NEW_OUT, SOURCE>(chain_fn);`.  The only constructor
that takes one argument which is not a StartablePipeline is
`StartablePipeline(SOURCE source)`, so `chain_fn` is converted to a `SOURCE`
(`to_source` is that conversion, which `SOURCE` has to provide for the call to
compile) and the base Pipeline is default constructed. -/
def StartablePipeline.Filter {IN OUT NEW_OUT SOURCE : Type}
    (to_source : tr1_function IN NEW_OUT → SOURCE)
    (s : StartablePipeline IN OUT SOURCE) (filter : tr1_function OUT NEW_OUT) :
    StartablePipeline IN NEW_OUT SOURCE :=
  let chain_fn : tr1_function IN NEW_OUT := some (chain s.toPipeline.get_fn filter)
  StartablePipeline.of_source (to_source chain_fn)

/-! ## Events, sources, latch -/

/-- Identifies an object of the graph rooted at the object on which `run` is called. -/
inductive Target where
  | this
  | child (i : Nat)
  deriving DecidableEq, Repr

/-- Externally visible actions.  The four source events carry the state of the
source object at the moment of the call. -/
inductive Event (OUT CB SOURCE : Type) where
  | warning
  | has_value (s : SOURCE)
  | wait (s : SOURCE)
  | is_closed (s : SOURCE)
  | get (s : SOURCE)
  | sink (v : OUT)
  | on_end (cb : CB)
  | latch_count_down (who : Target)
  | latch_wait
  deriving DecidableEq, Repr

/-- The capability set the template parameter `SOURCE` has to offer.  The state
of a source is the `SOURCE` value itself. -/
structure SourceOps (SOURCE T : Type) where
  has_value : SOURCE → Bool
  wait : SOURCE → SOURCE
  is_closed : SOURCE → Bool
  get : SOURCE → T × SOURCE

/-- The completion callback stored in `end_fn_`.  `default_end` stands for
`bind(&default_end, this)` (always bound to the object that stores it: every
constructor rebinds it), `user cb` for a callback given to `OnEnd`, `end_thread`
for `bind(&end_thread, this)` made in `run(pool)`, whose receiver is the object
that ran `run(pool)`, the root of the graph. -/
inductive EndFn (CB : Type) where
  | null
  | default_end
  | user (cb : CB)
  | end_thread
  deriving DecidableEq, Repr

/-- Class `RunnablePipeline<IN, OUT, SOURCE>`. -/
structure RunnablePipeline (IN OUT SOURCE CB : Type) extends StartablePipeline IN OUT SOURCE where
  n_threads_ : Int
  children_ : List (RunnablePipeline IN OUT SOURCE CB)
  consumer_ : tr1_function IN (List OUT)
  end_fn_ : EndFn CB
  default_end_ : Bool
  end_latch_ : Nat
  count_ : Int

variable {IN OUT SOURCE CB : Type}

/-- Outcome of a call: it returned, it threw, it is still inside a loop when the
fuel ran out, or it used an object that does not exist (undefined behaviour). -/
inductive Status where
  | returned
  | threw (e : Exn)
  | running
  | undefined
  deriving DecidableEq, Repr

/-- Result of running a piece of code from a state: the outcome, the state
reached and the events performed, oldest first. -/
structure Run (σ E : Type) where
  status : Status
  state : σ
  trace : List E

/-- Modelled from the spec: `countdown_latch::count_down` (countdown_latch.h is
not part of the sources at hand); the latch is its count, and counting down
lowers it by one. -/
def countdown_latch.count_down (count : Nat) : Nat :=
  count - 1

/-- A user supplied `function<void ()>` as stored in `end_fn_`: empty or opaque callable. -/
def EndFn.of_function (end_fn : Option CB) : EndFn CB :=
  match end_fn with
  | none => EndFn.null
  | some cb => EndFn.user cb

namespace RunnablePipeline

/-- Method `set_default_end_fn`. -/
def set_default_end_fn (self : RunnablePipeline IN OUT SOURCE CB) :
    RunnablePipeline IN OUT SOURCE CB :=
  { self with end_fn_ := EndFn.default_end, default_end_ := true }

/-- Method `set_end_fn`. -/
def set_end_fn (self other : RunnablePipeline IN OUT SOURCE CB) :
    RunnablePipeline IN OUT SOURCE CB :=
  if other.default_end_ then
    set_default_end_fn self
  else
    { self with end_fn_ := other.end_fn_, default_end_ := false }

/-- Constructor `RunnablePipeline(StartablePipeline& start, function<void (IN)> consumer)`.
`children_` starts empty, `end_fn_` starts empty and is set by `set_default_end_fn`;
`count_` has no initialiser (it is written by `atomic_init` before it is ever
read) and is given the value 0 here. -/
def new (start : StartablePipeline IN OUT SOURCE)
    (consumer : tr1_function IN (List OUT)) :
    RunnablePipeline IN OUT SOURCE CB :=
  set_default_end_fn
    { toStartablePipeline := start, n_threads_ := 0, children_ := [], consumer_ := consumer,
      end_fn_ := EndFn.null, default_end_ := false, end_latch_ := 1, count_ := 0 }

/-- Copy constructor `RunnablePipeline(const RunnablePipeline& other)`. -/
def copy (other : RunnablePipeline IN OUT SOURCE CB) : RunnablePipeline IN OUT SOURCE CB :=
  set_end_fn
    { toStartablePipeline := other.toStartablePipeline, n_threads_ := other.n_threads_,
      children_ := [], consumer_ := other.consumer_,
      end_fn_ := EndFn.null, default_end_ := false, end_latch_ := 1, count_ := 0 }
    other

/-- Protected constructor `RunnablePipeline(const RunnablePipeline& other, function<void ()> end_fn)`. -/
def with_end_fn (other : RunnablePipeline IN OUT SOURCE CB) (end_fn : Option CB) :
    RunnablePipeline IN OUT SOURCE CB :=
  { toStartablePipeline := other.toStartablePipeline, n_threads_ := other.n_threads_,
    children_ := [], consumer_ := other.consumer_,
    end_fn_ := EndFn.of_function end_fn, default_end_ := false, end_latch_ := 0, count_ := 0 }

/-- Protected constructor `RunnablePipeline(const RunnablePipeline& other, int n_threads)`. -/
def with_n_threads (other : RunnablePipeline IN OUT SOURCE CB) (n_threads : Int) :
    RunnablePipeline IN OUT SOURCE CB :=
  set_end_fn
    { toStartablePipeline := other.toStartablePipeline, n_threads_ := n_threads,
      children_ := [], consumer_ := other.consumer_,
      end_fn_ := EndFn.null, default_end_ := false, end_latch_ := 1, count_ := 0 }
    other

/-- Method `OnEnd`.  The temporary built by the protected constructor is the
result (the copy on return is elided; it would only reset `end_latch_` to 1). -/
def OnEnd (self : RunnablePipeline IN OUT SOURCE CB) (end_fn : Option CB) :
    RunnablePipeline IN OUT SOURCE CB :=
  with_end_fn self end_fn

/-- Method `Parallel`. -/
def Parallel (self : RunnablePipeline IN OUT SOURCE CB) (n_threads : Int) :
    RunnablePipeline IN OUT SOURCE CB :=
  with_n_threads self n_threads

/-- Method `wait`: throws `logic_error` unless `default_end_`, otherwise waits on
`end_latch_`; the wait itself is the event `latch_wait`. -/
def wait (self : RunnablePipeline IN OUT SOURCE CB) :
    Except Exn (List (Event OUT CB SOURCE)) :=
  if !self.default_end_ then
    Except.error (Exn.logic_error "Cannot wait if EndFn defined.")
  else
    Except.ok [Event.latch_wait]

end RunnablePipeline

/-- Method `StartablePipeline::Consume`. -/
def StartablePipeline.Consume (s : StartablePipeline IN OUT SOURCE)
    (consumer : tr1_function OUT (List OUT)) :
    RunnablePipeline IN OUT SOURCE CB :=
  let fn : tr1_function IN OUT := s.toPipeline.get_fn
  let consumer_fn : tr1_function IN (List OUT) := some (terminate fn consumer)
  RunnablePipeline.new s consumer_fn

/-- A user sink that returns normally: its invocation with `v` hands over `v`. -/
def user_sink : tr1_function OUT (List OUT) :=
  some (fun v => Except.ok [v])

/-! ## The driver loop -/

/-- The `while (!closed)` loop of `run_internal`, run by an object whose source
is `src` and whose consumer is `consumer_`.  The state is the source. -/
def driver_loop (ops : SourceOps SOURCE IN)
    (consumer_ : tr1_function IN (List OUT)) :
    Nat → SOURCE → Run SOURCE (Event OUT CB SOURCE)
  | 0, src => { status := Status.running, state := src, trace := [] }
  | fuel + 1, src =>
    -- if (!get_source().has_value()) { get_source().wait(); }
    let src1 := if !ops.has_value src then ops.wait src else src
    let ev1 : List (Event OUT CB SOURCE) :=
      if !ops.has_value src then [Event.has_value src, Event.wait src] else [Event.has_value src]
    -- closed = get_source().is_closed();
    let closed := ops.is_closed src1
    let ev2 := ev1 ++ [Event.is_closed src1]
    if !closed then
      -- consumer_(get_source().get());
      let got := ops.get src1
      match consumer_.call got.1 with
      | Except.error e =>
        { status := Status.threw e, state := got.2, trace := ev2 ++ [Event.get src1] }
      | Except.ok vs =>
        let rest := driver_loop ops consumer_ fuel got.2
        { rest with trace := ev2 ++ [Event.get src1] ++ vs.map Event.sink ++ rest.trace }
    else
      { status := Status.returned, state := src1, trace := ev2 }

namespace RunnablePipeline

/-- The object designated by `who` in the graph rooted at `top`. -/
def object (who : Target) (top : RunnablePipeline IN OUT SOURCE CB) :
    Option (RunnablePipeline IN OUT SOURCE CB) :=
  match who with
  | Target.this => some top
  | Target.child i => top.children_[i]?

/-- Writes back the object designated by `who`. -/
def set_object (who : Target) (o top : RunnablePipeline IN OUT SOURCE CB) :
    RunnablePipeline IN OUT SOURCE CB :=
  match who with
  | Target.this => o
  | Target.child i => { top with children_ := top.children_.set i o }

/-- Method `default_end`, run on the object designated by `who`:
`end_latch_.count_down()`. -/
def default_end (who : Target) (top : RunnablePipeline IN OUT SOURCE CB) :
    Run (RunnablePipeline IN OUT SOURCE CB) (Event OUT CB SOURCE) :=
  match object who top with
  | none => { status := Status.undefined, state := top, trace := [] }
  | some o =>
    { status := Status.returned,
      state := set_object who { o with end_latch_ := countdown_latch.count_down o.end_latch_ } top,
      trace := [Event.latch_count_down who] }

/-- Invocation of a completion callback `fn` stored in the object `who`, for the
callbacks that do not go through `end_thread`.  The last case is only reached
from inside `end_thread` on the root (an `end_fn_` bound to the `end_thread` of
the object that stores it): `--count_` is executed once more, on a counter that
is 0, and the result is not 0. -/
def call_plain (fn : EndFn CB) (who : Target) (top : RunnablePipeline IN OUT SOURCE CB) :
    Run (RunnablePipeline IN OUT SOURCE CB) (Event OUT CB SOURCE) :=
  match fn with
  | EndFn.null => { status := Status.threw Exn.bad_function_call, state := top, trace := [] }
  | EndFn.default_end => default_end who top
  | EndFn.user cb => { status := Status.returned, state := top, trace := [Event.on_end cb] }
  | EndFn.end_thread =>
    { status := Status.returned, state := { top with count_ := top.count_ - 1 }, trace := [] }

/-- Method `end_thread`, always run on the root: `int left = --count_;
if (left == 0) end_fn_();`.  The counter stays far inside the range of `int`
(it starts at `n_threads_` and is lowered once per finished child). -/
def end_thread (top : RunnablePipeline IN OUT SOURCE CB) :
    Run (RunnablePipeline IN OUT SOURCE CB) (Event OUT CB SOURCE) :=
  let left := top.count_ - 1
  let top1 := { top with count_ := left }
  if left = 0 then
    call_plain top1.end_fn_ Target.this top1
  else
    { status := Status.returned, state := top1, trace := [] }

/-- The statement `end_fn_();` executed by the object designated by `who`. -/
def call_end_fn (who : Target) (top : RunnablePipeline IN OUT SOURCE CB) :
    Run (RunnablePipeline IN OUT SOURCE CB) (Event OUT CB SOURCE) :=
  match object who top with
  | none => { status := Status.undefined, state := top, trace := [] }
  | some o =>
    match o.end_fn_ with
    | EndFn.end_thread => end_thread top
    | fn => call_plain fn who top

/-- Method `run_internal`, run by the object designated by `who`: the driver
loop on its own source and consumer, then `end_fn_()`. -/
def run_internal (ops : SourceOps SOURCE IN) (fuel : Nat) (who : Target)
    (top : RunnablePipeline IN OUT SOURCE CB) :
    Run (RunnablePipeline IN OUT SOURCE CB) (Event OUT CB SOURCE) :=
  match object who top with
  | none => { status := Status.undefined, state := top, trace := [] }
  | some o =>
    let loop := driver_loop ops o.consumer_ fuel o.toStartablePipeline.get_source
    let top1 := set_object who { o with source_ := loop.state } top
    match loop.status with
    | Status.returned =>
      let fin := call_end_fn who top1
      { fin with trace := loop.trace ++ fin.trace }
    | st => { status := st, state := top1, trace := loop.trace }

/-- Method `run()`: warns when `n_threads_ > 0`, sets `n_threads_` to 0 and runs
the driver loop on the calling thread. -/
def run (ops : SourceOps SOURCE IN) (fuel : Nat) (self : RunnablePipeline IN OUT SOURCE CB) :
    Run (RunnablePipeline IN OUT SOURCE CB) (Event OUT CB SOURCE) :=
  let warn : List (Event OUT CB SOURCE) := if self.n_threads_ > 0 then [Event.warning] else []
  let self1 := { self with n_threads_ := 0 }
  let r := run_internal ops fuel Target.this self1
  { r with trace := warn ++ r.trace }

end RunnablePipeline

/-! ## The thread pool and `run(pool)` -/

/-- Modelled from the spec: a worker handle of the pool (simple_thread_pool.h is
not part of the sources at hand).  `execute` returns false when the worker
rejects the task; `accepts` is what it will answer. -/
structure mutable_thread where
  id : Nat
  accepts : Bool
  deriving DecidableEq, Repr

/-- Modelled from the spec: the pool is the list of its idle workers. -/
structure simple_thread_pool where
  unused : List mutable_thread
  deriving DecidableEq, Repr

/-- Modelled from the spec: `try_get_unused_thread` hands out an idle worker, which
is then no longer idle, or nothing (`NULL`) when no worker is idle. -/
def simple_thread_pool.try_get_unused_thread (pool : simple_thread_pool) :
    Option mutable_thread × simple_thread_pool :=
  match pool.unused with
  | [] => (none, pool)
  | t :: ts => (some t, { unused := ts })

/-- Modelled from the spec: `mutable_thread::execute`, true when the task is accepted. -/
def mutable_thread.execute (thread : mutable_thread) : Bool :=
  thread.accepts

/-- A task handed to a worker: `bind(&run_internal, target)`. -/
structure Task where
  target : Target
  deriving DecidableEq, Repr

/-- State threaded through `run(pool)`: the object itself, the pool, and the
tasks accepted so far with the worker that took each, oldest first. -/
structure PoolState (IN OUT SOURCE CB : Type) where
  self : RunnablePipeline IN OUT SOURCE CB
  pool : simple_thread_pool
  submitted : List (mutable_thread × Task)

namespace RunnablePipeline

/-- The `for (int i = 0; i < n_threads_; i++)` loop of `run(pool)`, with the
number of iterations still to do. -/
def run_pool_loop : Nat → PoolState IN OUT SOURCE CB →
    Run (PoolState IN OUT SOURCE CB) (Event OUT CB SOURCE)
  | 0, st => { status := Status.returned, state := st, trace := [] }
  | k + 1, st =>
    match st.pool.try_get_unused_thread with
    | (some thread, pool1) =>
      -- RunnablePipeline *p = new RunnablePipeline(*this);
      let p := copy st.self
      let p := { p with n_threads_ := 0 }
      let p := { p with end_fn_ := EndFn.end_thread }
      -- children_.push_back(p);
      let f : Task := { target := Target.child st.self.children_.length }
      let self1 := { st.self with children_ := st.self.children_ ++ [p] }
      if !thread.execute then
        { status := Status.threw Exn.std_exception,
          state := { self := self1, pool := pool1, submitted := st.submitted }, trace := [] }
      else
        run_pool_loop k { self := self1, pool := pool1, submitted := st.submitted ++ [(thread, f)] }
    | (none, pool1) =>
      { status := Status.threw Exn.std_exception,
        state := { st with pool := pool1 }, trace := [] }

/-- Method `run(simple_thread_pool& pool)`.  `children_.reserve(n_threads_)` has
no visible effect for a positive count; a negative count converts to a size
beyond `max_size()` and `reserve` throws `length_error`. -/
def run_pool (self : RunnablePipeline IN OUT SOURCE CB) (pool : simple_thread_pool) :
    Run (PoolState IN OUT SOURCE CB) (Event OUT CB SOURCE) :=
  if self.n_threads_ = 0 then
    match pool.try_get_unused_thread with
    | (some thread, pool1) =>
      let f : Task := { target := Target.this }
      if !thread.execute then
        { status := Status.threw Exn.std_exception,
          state := { self := self, pool := pool1, submitted := [] }, trace := [] }
      else
        { status := Status.returned,
          state := { self := self, pool := pool1, submitted := [(thread, f)] }, trace := [] }
    | (none, pool1) =>
      { status := Status.threw Exn.std_exception,
        state := { self := self, pool := pool1, submitted := [] }, trace := [] }
  else
    -- atomic_init(&count_, n_threads_);
    let self1 := { self with count_ := self.n_threads_ }
    if self1.n_threads_ < 0 then
      { status := Status.threw Exn.length_error,
        state := { self := self1, pool := pool, submitted := [] }, trace := [] }
    else
      run_pool_loop self1.n_threads_.toNat { self := self1, pool := pool, submitted := [] }

/-- The task `f` as run by a worker. -/
def run_task (ops : SourceOps SOURCE IN) (fuel : Nat) (f : Task)
    (top : RunnablePipeline IN OUT SOURCE CB) :
    Run (RunnablePipeline IN OUT SOURCE CB) (Event OUT CB SOURCE) :=
  run_internal ops fuel f.target top

end RunnablePipeline

/-! ## Observations on traces, schedules, example sources -/

/-- The value handed to the sink by an event, if it is a delivery. -/
def Event.delivered : Event OUT CB SOURCE → Option OUT
  | Event.sink v => some v
  | _ => none

/-- The values handed to the sink, oldest first. -/
def deliveries (trace : List (Event OUT CB SOURCE)) : List OUT :=
  trace.filterMap Event.delivered

/-- An event that is an invocation of the completion callback of the root:
its default callback counting down its latch, or its `OnEnd` callback. -/
def Event.is_completion : Event OUT CB SOURCE → Bool
  | Event.on_end _ => true
  | Event.latch_count_down Target.this => true
  | _ => false

/-- How many times the completion callback of the root was invoked. -/
def completions (trace : List (Event OUT CB SOURCE)) : Nat :=
  trace.countP Event.is_completion

/-- The source state in which an event called `get`, if it is such a call. -/
def Event.get_state : Event OUT CB SOURCE → Option SOURCE
  | Event.get s => some s
  | _ => none

/-- The source states in which `get` was called, oldest first. -/
def get_calls (trace : List (Event OUT CB SOURCE)) : List SOURCE :=
  trace.filterMap Event.get_state

/-- The source `src` yields exactly `xs` and then reports closed, read off
the source contract alone: a source that reports closed yields nothing more;
an open source that has a value yields it through `get` (the only state in
which `get` is valid); an open source without a value is waited on, as often
as it takes. -/
inductive Yields (ops : SourceOps SOURCE IN) : SOURCE → List IN → Prop where
  | closed (src : SOURCE) :
      ops.is_closed src = true →
      Yields ops src []
  | item (src : SOURCE) (x : IN) (xs : List IN) :
      ops.is_closed src = false →
      ops.has_value src = true →
      (ops.get src).1 = x →
      Yields ops (ops.get src).2 xs →
      Yields ops src (x :: xs)
  | wait (src : SOURCE) (xs : List IN) :
      ops.is_closed src = false →
      ops.has_value src = false →
      Yields ops (ops.wait src) xs →
      Yields ops src xs

/-- Workers run the tasks of `tasks` one after the other, each to the end of its
`run_internal`; the run stops at the first task that does not return. -/
def run_tasks (ops : SourceOps SOURCE IN) (fuel : Nat) :
    List Task → RunnablePipeline IN OUT SOURCE CB →
    Run (RunnablePipeline IN OUT SOURCE CB) (Event OUT CB SOURCE)
  | [], top => { status := Status.returned, state := top, trace := [] }
  | f :: rest, top =>
    let r := RunnablePipeline.run_task ops fuel f top
    match r.status with
    | Status.returned =>
      let r2 := run_tasks ops fuel rest r.state
      { r2 with trace := r.trace ++ r2.trace }
    | _ => r

/-- A source over a closed queue that already holds all its items: the state is
the list of items still to come. -/
def list_source : SourceOps (List Nat) Nat where
  has_value := fun s => !s.isEmpty
  wait := fun s => s
  is_closed := fun s => s.isEmpty
  get := fun s => (s.headD 0, s.tail)

/-- State of a source fed by another thread: `wakeups` counts the times `wait`
will return although nothing has arrived, `queue` holds the items available,
`incoming` the items that arrive later, one per `wait`. -/
structure FedSource where
  wakeups : Nat
  queue : List Nat
  incoming : List Nat
  deriving DecidableEq, Repr

/-- The operations of a `FedSource`.  It is closed once nothing is queued and
nothing more will arrive. -/
def fed_source : SourceOps FedSource Nat where
  has_value := fun s => !s.queue.isEmpty
  wait := fun s =>
    match s.wakeups, s.incoming with
    | w + 1, _ => { s with wakeups := w }
    | 0, [] => s
    | 0, x :: rest => { s with queue := s.queue ++ [x], incoming := rest }
  is_closed := fun s => s.queue.isEmpty && s.incoming.isEmpty
  get := fun s => (s.queue.headD 0, { s with queue := s.queue.tail })

/-- A source over the same state as `fed_source` that reports closed whenever
its queue is empty, also while items are still to arrive: the next `wait`
brings an item and the source is open again. -/
def hasty_source : SourceOps FedSource Nat where
  has_value := fun s => !s.queue.isEmpty
  wait := fed_source.wait
  is_closed := fun s => s.queue.isEmpty
  get := fun s => (s.queue.headD 0, { s with queue := s.queue.tail })

/-- The instances a caller can obtain through the public interface:
`Consume`, then any number of `OnEnd`, `Parallel` and copies. -/
inductive Configured : RunnablePipeline IN OUT SOURCE CB → Prop where
  | consume (s : StartablePipeline IN OUT SOURCE) (sink : tr1_function OUT (List OUT)) :
      Configured (s.Consume sink)
  | on_end (r : RunnablePipeline IN OUT SOURCE CB) (end_fn : Option CB) :
      Configured r → Configured (r.OnEnd end_fn)
  | parallel (r : RunnablePipeline IN OUT SOURCE CB) (n_threads : Int) :
      Configured r → Configured (r.Parallel n_threads)
  | copy (r : RunnablePipeline IN OUT SOURCE CB) :
      Configured r → Configured (RunnablePipeline.copy r)

/-- The pipeline `Pipeline(x -> 10 * x).Source([1, 2, 3]).Consume(sink)` over a list source. -/
def sample_pipeline : RunnablePipeline Nat Nat (List Nat) Unit :=
  (((Pipeline.new (tr1_function.of (fun x => 10 * x))).Source [1, 2, 3]).Consume user_sink)

/-- A pool with `k` idle workers that accept their task. -/
def willing_pool (k : Nat) : simple_thread_pool :=
  { unused := (List.range k).map (fun i => { id := i, accepts := true }) }

/-- The pipeline `Pipeline(x -> 10 * x).Source(src).Consume(sink)` over a source fed by
another thread: one item, 7, is still to arrive, and the first `wait` returns
before it has arrived. -/
def fed_pipeline : RunnablePipeline Nat Nat FedSource Unit :=
  (((Pipeline.new (tr1_function.of (fun x => 10 * x))).Source
    ({ wakeups := 1, queue := [], incoming := [7] } : FedSource)).Consume user_sink)

/-- The child that one iteration of the loop of `run(pool)` builds from the
parent: a copy with `n_threads_ = 0` and `end_fn_` bound to the parent's
`end_thread`. -/
def RunnablePipeline.new_child (self : RunnablePipeline IN OUT SOURCE CB) :
    RunnablePipeline IN OUT SOURCE CB :=
  { { RunnablePipeline.copy self with n_threads_ := 0 } with end_fn_ := EndFn.end_thread }

/-- What the loop of `run(pool)` submits when each of the workers `ws` accepts:
the worker taken in iteration `j` gets the `run_internal` of the child stored
at index `base + j`. -/
def dispatch (base : Nat) : List mutable_thread → List (mutable_thread × Task)
  | [] => []
  | w :: ws => (w, { target := Target.child base }) :: dispatch (base + 1) ws

/-- The task `f` is the `run_internal` of an existing child of `top` whose
completion callback is the `end_thread` of `top` and whose driver loop, from
the child's current source, returns within `fuel`. -/
def ReadyChild (ops : SourceOps SOURCE IN) (fuel : Nat)
    (top : RunnablePipeline IN OUT SOURCE CB) (f : Task) : Prop :=
  ∃ i o, f.target = Target.child i ∧ top.children_[i]? = some o ∧
    o.end_fn_ = EndFn.end_thread ∧
    (driver_loop ops o.consumer_ fuel o.source_ : Run SOURCE (Event OUT CB SOURCE)).status
      = Status.returned

/-- The pipeline `Pipeline(x -> 10 * x).Source(src).Consume(sink)` over a source with
an empty queue and one item, 7, still to arrive. -/
def hasty_pipeline : RunnablePipeline Nat Nat FedSource Unit :=
  (((Pipeline.new (tr1_function.of (fun x => 10 * x))).Source
    ({ wakeups := 0, queue := [], incoming := [7] } : FedSource)).Consume user_sink)

/-! ## Composition -/

theorem tr1_function.call_of {A R : Type} (g : A → R) (a : A) :
    (tr1_function.of g).call a = Except.ok (g a) := rfl

theorem Pipeline.Filter_apply_eq {MID : Type} (p : Pipeline IN OUT)
    (filter : tr1_function OUT MID) (x : IN) :
    (p.Filter filter).apply x = chain p.fn_ filter x := rfl

/-- C3: for a Pipeline `p` whose composed function is `f`, `p.Filter(g).apply(x)`
is `g(f(x))`, which is also what the single Pipeline built from `x -> g(f(x))`
returns, and `p.Filter(g).Filter(h).apply(x)` is `h(g(f(x)))`. -/
theorem Pipeline.Filter_apply_composes {MID NEW : Type} (p : Pipeline IN OUT) (f : IN → OUT)
    (hp : ∀ x, p.apply x = Except.ok (f x)) (g : OUT → MID) (h : MID → NEW) (x : IN) :
    (p.Filter (tr1_function.of g)).apply x = Except.ok (g (f x)) ∧
    (p.Filter (tr1_function.of g)).apply x
      = (Pipeline.new (tr1_function.of (fun y => g (f y)))).apply x ∧
    ((p.Filter (tr1_function.of g)).Filter (tr1_function.of h)).apply x
      = Except.ok (h (g (f x))) := by
  have hx : p.fn_.call x = Except.ok (f x) := hp x
  have h1 : (p.Filter (tr1_function.of g)).apply x = Except.ok (g (f x)) := by
    rw [Pipeline.Filter_apply_eq]
    simp only [chain, hx, tr1_function.call_of]
  refine ⟨h1, ?_, ?_⟩
  · rw [h1]; rfl
  · rw [Pipeline.Filter_apply_eq]
    have h2 : (p.Filter (tr1_function.of g)).fn_.call x = Except.ok (g (f x)) := h1
    simp only [chain, h2, tr1_function.call_of]

/-- Witness for C3: `Pipeline(x -> x + 1).Filter(x -> 2 * x).Filter(x -> x + 5)` at 3. -/
theorem Pipeline.Filter_apply_composes_witness :
    ((Pipeline.new (tr1_function.of (fun x : Nat => x + 1))).Filter
        (tr1_function.of (fun y : Nat => 2 * y))).apply 3 = Except.ok 8 ∧
    ((Pipeline.new (tr1_function.of (fun x : Nat => x + 1))).Filter
        (tr1_function.of (fun y : Nat => 2 * y))).apply 3
      = (Pipeline.new (tr1_function.of (fun y : Nat => 2 * (y + 1)))).apply 3 ∧
    (((Pipeline.new (tr1_function.of (fun x : Nat => x + 1))).Filter
        (tr1_function.of (fun y : Nat => 2 * y))).Filter
        (tr1_function.of (fun z : Nat => z + 5))).apply 3 = Except.ok 13 :=
  Pipeline.Filter_apply_composes (Pipeline.new (tr1_function.of (fun x : Nat => x + 1)))
    (fun x => x + 1) (fun _ => rfl) (fun y => 2 * y) (fun z => z + 5) 3

theorem StartablePipeline.Filter_fn_empty {NEW_OUT : Type}
    (to_source : tr1_function IN NEW_OUT → SOURCE) (s : StartablePipeline IN OUT SOURCE)
    (filter : tr1_function OUT NEW_OUT) (x : IN) :
    (s.Filter to_source filter).fn_ = none ∧
    (s.Filter to_source filter).source_ = to_source (some (chain s.fn_ filter)) ∧
    (s.Filter to_source filter).toPipeline.apply x = Except.error Exn.bad_function_call :=
  ⟨rfl, rfl, rfl⟩

/-- C5, the code at a failing input: for `s = Pipeline(x -> 10 * x).Source([1, 2, 3])` and
`g = (y -> y + 1)`, with a list source that starts empty when built from a
function, `s.Filter(g)` is bound to the empty source instead of `[1, 2, 3]` and
its composed function is the empty function, so applying it to 2 throws
`bad_function_call` instead of returning 21. -/
theorem StartablePipeline.Filter_drops_source_and_function :
    (((Pipeline.new (tr1_function.of (fun x : Nat => 10 * x))).Source [1, 2, 3]).Filter
        (fun _ => ([] : List Nat)) (tr1_function.of (fun y : Nat => y + 1))).source_ = [] ∧
    (((Pipeline.new (tr1_function.of (fun x : Nat => 10 * x))).Source [1, 2, 3]).Filter
        (fun _ => ([] : List Nat)) (tr1_function.of (fun y : Nat => y + 1))).fn_ = none ∧
    (((Pipeline.new (tr1_function.of (fun x : Nat => 10 * x))).Source [1, 2, 3]).Filter
        (fun _ => ([] : List Nat)) (tr1_function.of (fun y : Nat => y + 1))).toPipeline.apply 2
      = Except.error Exn.bad_function_call ∧
    ((Pipeline.new (tr1_function.of (fun x : Nat => 10 * x))).Filter
        (tr1_function.of (fun y : Nat => y + 1))).apply 2 = Except.ok 21 :=
  ⟨rfl, rfl, rfl, rfl⟩

/-! ## `wait` and the completion callback -/

theorem Configured.default_end_iff {r : RunnablePipeline IN OUT SOURCE CB} (h : Configured r) :
    r.default_end_ = true ↔ r.end_fn_ = EndFn.default_end := by
  induction h with
  | consume s sink => exact ⟨fun _ => rfl, fun _ => rfl⟩
  | on_end r end_fn _ _ =>
    cases end_fn <;>
      simp [RunnablePipeline.OnEnd, RunnablePipeline.with_end_fn, EndFn.of_function]
  | parallel r n _ ih =>
    cases hd : r.default_end_
    · have hne : r.end_fn_ ≠ EndFn.default_end := fun he => by
        have := ih.mpr he
        simp [hd] at this
      simp [RunnablePipeline.Parallel, RunnablePipeline.with_n_threads,
        RunnablePipeline.set_end_fn, hd, hne]
    · simp [RunnablePipeline.Parallel, RunnablePipeline.with_n_threads,
        RunnablePipeline.set_end_fn, RunnablePipeline.set_default_end_fn, hd]
  | copy r _ ih =>
    cases hd : r.default_end_
    · have hne : r.end_fn_ ≠ EndFn.default_end := fun he => by
        have := ih.mpr he
        simp [hd] at this
      simp [RunnablePipeline.copy, RunnablePipeline.set_end_fn, hd, hne]
    · simp [RunnablePipeline.copy, RunnablePipeline.set_end_fn,
        RunnablePipeline.set_default_end_fn, hd]

theorem RunnablePipeline.wait_eq (q : RunnablePipeline IN OUT SOURCE CB) :
    (q.default_end_ = false ∧
      q.wait = Except.error (Exn.logic_error "Cannot wait if EndFn defined.")) ∨
    (q.default_end_ = true ∧ q.wait = Except.ok [Event.latch_wait]) := by
  cases hd : q.default_end_ <;> simp [RunnablePipeline.wait, hd]

/-- C4: `wait()` throws `logic_error`, without reaching the latch, exactly when
the completion callback is not the library default.  It throws on
`r.OnEnd(fn)` and on `r.OnEnd(fn).Parallel(n)` for every `r`, `fn`, `n`; it goes
on to wait on the latch on `s.Consume(sink)` and `s.Consume(sink).Parallel(m)`;
and on every instance obtainable through the public interface it throws if and
only if `end_fn_` is not the default callback, and waits on the latch otherwise. -/
theorem RunnablePipeline.wait_throws_iff_custom_end (r : RunnablePipeline IN OUT SOURCE CB)
    (end_fn : Option CB) (n : Int) (s : StartablePipeline IN OUT SOURCE)
    (sink : tr1_function OUT (List OUT)) (m : Int) :
    (r.OnEnd end_fn).wait = Except.error (Exn.logic_error "Cannot wait if EndFn defined.") ∧
    ((r.OnEnd end_fn).Parallel n).wait
      = Except.error (Exn.logic_error "Cannot wait if EndFn defined.") ∧
    (s.Consume sink : RunnablePipeline IN OUT SOURCE CB).wait = Except.ok [Event.latch_wait] ∧
    ((s.Consume sink : RunnablePipeline IN OUT SOURCE CB).Parallel m).wait
      = Except.ok [Event.latch_wait] ∧
    (∀ q : RunnablePipeline IN OUT SOURCE CB, Configured q →
      (q.wait = Except.error (Exn.logic_error "Cannot wait if EndFn defined.")
        ↔ q.end_fn_ ≠ EndFn.default_end) ∧
      (q.wait = Except.ok [Event.latch_wait] ↔ q.end_fn_ = EndFn.default_end)) := by
  refine ⟨rfl, rfl, rfl, rfl, ?_⟩
  intro q hq
  have hiff := hq.default_end_iff
  rcases q.wait_eq with ⟨hd, hw⟩ | ⟨hd, hw⟩
  · have hne : q.end_fn_ ≠ EndFn.default_end := fun he => by
      have := hiff.mpr he
      simp [hd] at this
    simp [hw, hne]
  · have he : q.end_fn_ = EndFn.default_end := hiff.mp hd
    simp [hw, he]

/-! ## `run(pool)` with thread count 0 -/

/-- C8, as the code has it: with thread count 0, `run(pool)` takes exactly one
worker from the pool.  With no idle worker it throws `std::exception` and
submits nothing; when the worker rejects the task it throws `std::exception`
again (the same exception, so the two failures cannot be told apart) and
submits nothing; otherwise it returns, having submitted the `run_internal` of
the instance itself once, with the instance (and its children) unchanged. -/
theorem RunnablePipeline.run_pool_single_thread (self : RunnablePipeline IN OUT SOURCE CB)
    (pool : simple_thread_pool) (h0 : self.n_threads_ = 0) :
    (pool.unused = [] →
      (self.run_pool pool).status = Status.threw Exn.std_exception ∧
      (self.run_pool pool).state.submitted = [] ∧
      (self.run_pool pool).state.self = self) ∧
    (∀ t ts, pool.unused = t :: ts → t.accepts = false →
      (self.run_pool pool).status = Status.threw Exn.std_exception ∧
      (self.run_pool pool).state.submitted = [] ∧
      (self.run_pool pool).state.pool.unused = ts ∧
      (self.run_pool pool).state.self = self) ∧
    (∀ t ts, pool.unused = t :: ts → t.accepts = true →
      (self.run_pool pool).status = Status.returned ∧
      (self.run_pool pool).state.submitted = [(t, { target := Target.this })] ∧
      (self.run_pool pool).state.pool.unused = ts ∧
      (self.run_pool pool).state.self = self) := by
  refine ⟨?_, ?_, ?_⟩
  · intro hp
    simp [RunnablePipeline.run_pool, h0, simple_thread_pool.try_get_unused_thread, hp]
  · intro t ts hp ht
    simp [RunnablePipeline.run_pool, h0, simple_thread_pool.try_get_unused_thread, hp,
      mutable_thread.execute, ht]
  · intro t ts hp ht
    simp [RunnablePipeline.run_pool, h0, simple_thread_pool.try_get_unused_thread, hp,
      mutable_thread.execute, ht]

/-- Witness for C8: the sample pipeline on a pool with one willing worker. -/
theorem RunnablePipeline.run_pool_single_thread_witness :
    sample_pipeline.n_threads_ = 0 ∧
    (sample_pipeline.run_pool (willing_pool 1)).status = Status.returned ∧
    (sample_pipeline.run_pool (willing_pool 1)).state.submitted
      = [({ id := 0, accepts := true }, { target := Target.this })] :=
  ⟨rfl,
   ((RunnablePipeline.run_pool_single_thread sample_pipeline (willing_pool 1) rfl).2.2
      { id := 0, accepts := true } [] rfl rfl).1,
   ((RunnablePipeline.run_pool_single_thread sample_pipeline (willing_pool 1) rfl).2.2
      { id := 0, accepts := true } [] rfl rfl).2.1⟩

/-- C8 as stated fails: on the sample pipeline, the failure with no idle worker
and the failure with a worker that rejects the task are the same outcome, the
same `std::exception`. -/
theorem RunnablePipeline.run_pool_failures_indistinguishable :
    (sample_pipeline.run_pool { unused := [] }).status = Status.threw Exn.std_exception ∧
    (sample_pipeline.run_pool { unused := [{ id := 0, accepts := false }] }).status
      = Status.threw Exn.std_exception ∧
    ¬ ((sample_pipeline.run_pool { unused := [{ id := 0, accepts := false }] }).status
      ≠ (sample_pipeline.run_pool { unused := [] }).status) := by
  refine ⟨rfl, rfl, ?_⟩
  intro h
  exact h rfl

/-! ## The driver loop: what is delivered -/

theorem deliveries_append (a b : List (Event OUT CB SOURCE)) :
    deliveries (a ++ b) = deliveries a ++ deliveries b := by
  simp [deliveries, List.filterMap_append]

theorem completions_append (a b : List (Event OUT CB SOURCE)) :
    completions (a ++ b) = completions a + completions b := by
  simp [completions, List.countP_append]

theorem deliveries_map_sink (vs : List OUT) :
    deliveries (vs.map (Event.sink : OUT → Event OUT CB SOURCE)) = vs := by
  induction vs with
  | nil => rfl
  | cons v rest ih =>
    simp only [deliveries, List.map_cons, List.filterMap_cons, Event.delivered] at ih ⊢
    rw [ih]

theorem completions_map_sink (vs : List OUT) :
    completions (vs.map (Event.sink : OUT → Event OUT CB SOURCE)) = 0 := by
  induction vs with
  | nil => rfl
  | cons v rest ih =>
    simp only [completions, List.map_cons] at ih ⊢
    rw [List.countP_cons_of_neg]
    · exact ih
    · simp [Event.is_completion]

theorem driver_loop_closed (ops : SourceOps SOURCE IN) (consumer_ : tr1_function IN (List OUT))
    (k : Nat) (src : SOURCE)
    (h : ops.is_closed (if !ops.has_value src then ops.wait src else src) = true) :
    (driver_loop ops consumer_ (k + 1) src : Run SOURCE (Event OUT CB SOURCE)) =
      { status := Status.returned,
        state := if !ops.has_value src then ops.wait src else src,
        trace := (if !ops.has_value src then [Event.has_value src, Event.wait src]
            else [Event.has_value src]) ++
          [Event.is_closed (if !ops.has_value src then ops.wait src else src)] } := by
  rw [driver_loop]
  simp only [h, Bool.not_true]
  rfl

theorem driver_loop_threw (ops : SourceOps SOURCE IN) (consumer_ : tr1_function IN (List OUT))
    (k : Nat) (src : SOURCE) (e : Exn)
    (h : ops.is_closed (if !ops.has_value src then ops.wait src else src) = false)
    (hc : consumer_.call (ops.get (if !ops.has_value src then ops.wait src else src)).1
      = Except.error e) :
    (driver_loop ops consumer_ (k + 1) src : Run SOURCE (Event OUT CB SOURCE)) =
      { status := Status.threw e,
        state := (ops.get (if !ops.has_value src then ops.wait src else src)).2,
        trace := (if !ops.has_value src then [Event.has_value src, Event.wait src]
            else [Event.has_value src]) ++
          [Event.is_closed (if !ops.has_value src then ops.wait src else src)] ++
          [Event.get (if !ops.has_value src then ops.wait src else src)] } := by
  rw [driver_loop]
  simp only [h, Bool.not_false, if_true, hc]

theorem driver_loop_item (ops : SourceOps SOURCE IN) (consumer_ : tr1_function IN (List OUT))
    (k : Nat) (src : SOURCE) (vs : List OUT)
    (h : ops.is_closed (if !ops.has_value src then ops.wait src else src) = false)
    (hc : consumer_.call (ops.get (if !ops.has_value src then ops.wait src else src)).1
      = Except.ok vs) :
    (driver_loop ops consumer_ (k + 1) src : Run SOURCE (Event OUT CB SOURCE)) =
      { status := (driver_loop ops consumer_ k
            (ops.get (if !ops.has_value src then ops.wait src else src)).2 :
            Run SOURCE (Event OUT CB SOURCE)).status,
        state := (driver_loop ops consumer_ k
            (ops.get (if !ops.has_value src then ops.wait src else src)).2 :
            Run SOURCE (Event OUT CB SOURCE)).state,
        trace := (if !ops.has_value src then [Event.has_value src, Event.wait src]
            else [Event.has_value src]) ++
          [Event.is_closed (if !ops.has_value src then ops.wait src else src)] ++
          [Event.get (if !ops.has_value src then ops.wait src else src)] ++
          vs.map Event.sink ++
          (driver_loop ops consumer_ k
            (ops.get (if !ops.has_value src then ops.wait src else src)).2).trace } := by
  rw [driver_loop]
  simp only [h, Bool.not_false, if_true, hc]

theorem deliveries_poll (b : Bool) (s : SOURCE) :
    deliveries (if b then [Event.has_value s, Event.wait s]
      else [(Event.has_value s : Event OUT CB SOURCE)]) = [] := by
  cases b <;> rfl

theorem deliveries_is_closed (s : SOURCE) :
    deliveries [(Event.is_closed s : Event OUT CB SOURCE)] = [] := rfl

theorem deliveries_get (s : SOURCE) :
    deliveries [(Event.get s : Event OUT CB SOURCE)] = [] := rfl

theorem completions_poll (b : Bool) (s : SOURCE) :
    completions (if b then [Event.has_value s, Event.wait s]
      else [(Event.has_value s : Event OUT CB SOURCE)]) = 0 := by
  cases b <;> rfl

theorem completions_is_closed (s : SOURCE) :
    completions [(Event.is_closed s : Event OUT CB SOURCE)] = 0 := rfl

theorem completions_get (s : SOURCE) :
    completions [(Event.get s : Event OUT CB SOURCE)] = 0 := rfl

theorem get_calls_poll (b : Bool) (s : SOURCE) :
    get_calls (if b then [Event.has_value s, Event.wait s]
      else [(Event.has_value s : Event OUT CB SOURCE)]) = [] := by
  cases b <;> rfl

theorem get_calls_is_closed (s : SOURCE) :
    get_calls [(Event.is_closed s : Event OUT CB SOURCE)] = [] := rfl

theorem get_calls_get (s : SOURCE) :
    get_calls [(Event.get s : Event OUT CB SOURCE)] = [s] := rfl

theorem get_calls_append (a b : List (Event OUT CB SOURCE)) :
    get_calls (a ++ b) = get_calls a ++ get_calls b := by
  simp [get_calls, List.filterMap_append]

theorem get_calls_map_sink (vs : List OUT) :
    get_calls (vs.map (Event.sink : OUT → Event OUT CB SOURCE)) = [] := by
  induction vs with
  | nil => rfl
  | cons v rest ih =>
    simp only [get_calls, List.map_cons, List.filterMap_cons, Event.get_state] at ih ⊢
    exact ih

/-- The driver loop never invokes a completion callback. -/
theorem driver_loop_completions (ops : SourceOps SOURCE IN)
    (consumer_ : tr1_function IN (List OUT)) (fuel : Nat) (src : SOURCE) :
    completions (driver_loop ops consumer_ fuel src : Run SOURCE (Event OUT CB SOURCE)).trace
      = 0 := by
  induction fuel generalizing src with
  | zero => rfl
  | succ k ih =>
    cases h : ops.is_closed (if !ops.has_value src then ops.wait src else src)
    · cases hc : consumer_.call (ops.get (if !ops.has_value src then ops.wait src else src)).1 with
      | error e =>
        rw [driver_loop_threw ops consumer_ k src e h hc]
        simp only [completions_append, completions_poll, completions_is_closed, completions_get]
      | ok vs =>
        rw [driver_loop_item ops consumer_ k src vs h hc]
        simp only [completions_append, completions_poll, completions_is_closed, completions_get,
          completions_map_sink, ih]
    · rw [driver_loop_closed ops consumer_ k src h]
      simp only [completions_append, completions_poll, completions_is_closed]

/-- One iteration of the driver loop sees the source only through the state
it is in after the optional `wait`: two sources that agree there give the same
outcome and the same deliveries. -/
theorem driver_loop_same_ready (ops : SourceOps SOURCE IN)
    (consumer_ : tr1_function IN (List OUT)) (k : Nat) (src src1 : SOURCE)
    (hr : (if !ops.has_value src then ops.wait src else src)
      = (if !ops.has_value src1 then ops.wait src1 else src1)) :
    (driver_loop ops consumer_ (k + 1) src : Run SOURCE (Event OUT CB SOURCE)).status
      = (driver_loop ops consumer_ (k + 1) src1 : Run SOURCE (Event OUT CB SOURCE)).status ∧
    deliveries (driver_loop ops consumer_ (k + 1) src :
        Run SOURCE (Event OUT CB SOURCE)).trace
      = deliveries (driver_loop ops consumer_ (k + 1) src1 :
        Run SOURCE (Event OUT CB SOURCE)).trace := by
  cases h : ops.is_closed (if !ops.has_value src then ops.wait src else src)
  · have h1 : ops.is_closed (if !ops.has_value src1 then ops.wait src1 else src1) = false := by
      rw [← hr]; exact h
    cases hc : consumer_.call (ops.get (if !ops.has_value src then ops.wait src else src)).1 with
    | error e =>
      have hc1 : consumer_.call
          (ops.get (if !ops.has_value src1 then ops.wait src1 else src1)).1
          = Except.error e := by rw [← hr]; exact hc
      rw [driver_loop_threw ops consumer_ k src e h hc,
        driver_loop_threw ops consumer_ k src1 e h1 hc1]
      refine ⟨rfl, ?_⟩
      simp only [deliveries_append, deliveries_poll, deliveries_is_closed, deliveries_get]
    | ok vs =>
      have hc1 : consumer_.call
          (ops.get (if !ops.has_value src1 then ops.wait src1 else src1)).1
          = Except.ok vs := by rw [← hr]; exact hc
      rw [driver_loop_item ops consumer_ k src vs h hc,
        driver_loop_item ops consumer_ k src1 vs h1 hc1]
      simp only [deliveries_append, deliveries_poll, deliveries_is_closed, deliveries_get, hr]
      exact ⟨trivial, trivial⟩
  · have h1 : ops.is_closed (if !ops.has_value src1 then ops.wait src1 else src1) = true := by
      rw [← hr]; exact h
    rw [driver_loop_closed ops consumer_ k src h, driver_loop_closed ops consumer_ k src1 h1]
    refine ⟨rfl, ?_⟩
    simp only [deliveries_append, deliveries_poll, deliveries_is_closed]

/-- On a source that yields `xs` and then closes, whose `wait` returns only
once a value is available or the source is closed and leaves a closed source
closed, and with a consumer that hands `f x` to the sink for every `x`, the
driver loop returns once it has more fuel than there are items, and has
delivered `f x1, ..., f xk` in that order. -/
theorem driver_loop_yields (ops : SourceOps SOURCE IN)
    (hwait : ∀ s, ops.has_value s = false →
      ops.has_value (ops.wait s) = true ∨ ops.is_closed (ops.wait s) = true)
    (hclosed : ∀ s, ops.is_closed s = true → ops.is_closed (ops.wait s) = true)
    (consumer_ : tr1_function IN (List OUT))
    (f : IN → OUT) (hcons : ∀ x, consumer_.call x = Except.ok [f x])
    (src : SOURCE) (xs : List IN) (hsrc : Yields ops src xs) (fuel : Nat)
    (hfuel : xs.length < fuel) :
    (driver_loop ops consumer_ fuel src : Run SOURCE (Event OUT CB SOURCE)).status
      = Status.returned ∧
    deliveries (driver_loop ops consumer_ fuel src : Run SOURCE (Event OUT CB SOURCE)).trace
      = xs.map f := by
  induction hsrc generalizing fuel with
  | closed src hc =>
    obtain ⟨k, rfl⟩ : ∃ k, fuel = k + 1 := ⟨fuel - 1, by omega⟩
    have h : ops.is_closed (if !ops.has_value src then ops.wait src else src) = true := by
      cases hv : ops.has_value src
      · simp only [Bool.not_false, if_true]
        exact hclosed src hc
      · simp only [Bool.not_true]
        exact hc
    rw [driver_loop_closed ops consumer_ k src h]
    refine ⟨rfl, ?_⟩
    simp only [deliveries_append, deliveries_poll, deliveries_is_closed, List.append_nil,
      List.map_nil]
  | item src x xs hc hv hx _ ih =>
    obtain ⟨k, rfl⟩ : ∃ k, fuel = k + 1 := ⟨fuel - 1, by omega⟩
    have hk : xs.length < k := by simp only [List.length_cons] at hfuel; omega
    have hready : (if !ops.has_value src then ops.wait src else src) = src := by
      simp only [hv, Bool.not_true]
      rfl
    have h : ops.is_closed (if !ops.has_value src then ops.wait src else src) = false := by
      rw [hready]; exact hc
    have hcall := hcons (ops.get (if !ops.has_value src then ops.wait src else src)).1
    rw [driver_loop_item ops consumer_ k src _ h hcall]
    simp only [hready] at ih ⊢
    refine ⟨(ih k hk).1, ?_⟩
    simp only [deliveries_append, deliveries_poll, deliveries_is_closed, deliveries_get,
      deliveries_map_sink, (ih k hk).2, hx, List.map_cons, List.nil_append,
      List.singleton_append]
    rfl
  | wait src xs hc hv hrest ih =>
    obtain ⟨k, rfl⟩ : ∃ k, fuel = k + 1 := ⟨fuel - 1, by omega⟩
    have hready : (if !ops.has_value src then ops.wait src else src) = ops.wait src := by
      simp only [hv, Bool.not_false, if_true]
    cases hv1 : ops.has_value (ops.wait src)
    · have hc1 : ops.is_closed (ops.wait src) = true := by
        rcases hwait src hv with h1 | h1
        · rw [hv1] at h1; cases h1
        · exact h1
      have hxs : xs = [] := by
        cases hrest with
        | closed _ _ => rfl
        | item _ _ _ h2 _ _ _ => rw [hc1] at h2; cases h2
        | wait _ _ h2 _ _ => rw [hc1] at h2; cases h2
      subst hxs
      have h : ops.is_closed (if !ops.has_value src then ops.wait src else src) = true := by
        rw [hready]; exact hc1
      rw [driver_loop_closed ops consumer_ k src h]
      refine ⟨rfl, ?_⟩
      simp only [deliveries_append, deliveries_poll, deliveries_is_closed, List.append_nil,
        List.map_nil]
    · have hready1 : (if !ops.has_value (ops.wait src) then ops.wait (ops.wait src)
          else ops.wait src) = ops.wait src := by
        simp only [hv1, Bool.not_true]
        rfl
      obtain ⟨e1, e2⟩ := @driver_loop_same_ready IN OUT SOURCE CB ops consumer_ k src
        (ops.wait src) (hready.trans hready1.symm)
      rw [e1, e2]
      exact ih (k + 1) hfuel

/-- When `wait` only returns with a value available or with the source closed,
every `get` of the driver loop is made with `has_value` true and `is_closed`
false, however far the loop gets. -/
theorem driver_loop_get_calls (ops : SourceOps SOURCE IN)
    (hwait : ∀ s, ops.has_value s = false →
      ops.has_value (ops.wait s) = true ∨ ops.is_closed (ops.wait s) = true)
    (consumer_ : tr1_function IN (List OUT)) (fuel : Nat) (src : SOURCE) :
    ∀ s ∈ get_calls
        (driver_loop ops consumer_ fuel src : Run SOURCE (Event OUT CB SOURCE)).trace,
      ops.has_value s = true ∧ ops.is_closed s = false := by
  induction fuel generalizing src with
  | zero => intro s hs; simp [driver_loop, get_calls] at hs
  | succ k ih =>
    have hready : ops.is_closed (if !ops.has_value src then ops.wait src else src) = false →
        ops.has_value (if !ops.has_value src then ops.wait src else src) = true := by
      intro hcl
      cases hv : ops.has_value src
      · simp only [hv, Bool.not_false, if_true] at hcl ⊢
        rcases hwait src hv with h1 | h1
        · exact h1
        · rw [h1] at hcl; cases hcl
      · simp only [hv, Bool.not_true]
        exact hv
    cases h : ops.is_closed (if !ops.has_value src then ops.wait src else src)
    · cases hc : consumer_.call (ops.get (if !ops.has_value src then ops.wait src else src)).1 with
      | error e =>
        rw [driver_loop_threw ops consumer_ k src e h hc]
        intro s hs
        simp only [get_calls_append, get_calls_poll, get_calls_is_closed, get_calls_get,
          List.nil_append, List.mem_singleton] at hs
        subst hs
        exact ⟨hready h, h⟩
      | ok vs =>
        rw [driver_loop_item ops consumer_ k src vs h hc]
        intro s hs
        simp only [get_calls_append, get_calls_poll, get_calls_is_closed, get_calls_get,
          get_calls_map_sink, List.nil_append, List.append_nil, List.singleton_append,
          List.mem_cons] at hs
        rcases hs with hs | hs
        · subst hs
          exact ⟨hready h, h⟩
        · exact ih _ s hs
    · rw [driver_loop_closed ops consumer_ k src h]
      intro s hs
      simp only [get_calls_append, get_calls_poll, get_calls_is_closed, List.append_nil,
        List.not_mem_nil] at hs

/-! ## `run_internal` and the serial `run()` -/

theorem RunnablePipeline.call_plain_get_calls (fn : EndFn CB) (who : Target)
    (top : RunnablePipeline IN OUT SOURCE CB) :
    get_calls (RunnablePipeline.call_plain fn who top :
      Run (RunnablePipeline IN OUT SOURCE CB) (Event OUT CB SOURCE)).trace = [] := by
  cases fn with
  | null => rfl
  | default_end =>
    simp only [RunnablePipeline.call_plain, RunnablePipeline.default_end]
    cases RunnablePipeline.object who top <;> rfl
  | user cb => rfl
  | end_thread => rfl

theorem RunnablePipeline.call_end_fn_end_thread (who : Target)
    (top o : RunnablePipeline IN OUT SOURCE CB)
    (ho : RunnablePipeline.object who top = some o) (he : o.end_fn_ = EndFn.end_thread) :
    (RunnablePipeline.call_end_fn who top :
      Run (RunnablePipeline IN OUT SOURCE CB) (Event OUT CB SOURCE)) = top.end_thread := by
  simp only [RunnablePipeline.call_end_fn, ho, he]

theorem RunnablePipeline.call_end_fn_plain (who : Target)
    (top o : RunnablePipeline IN OUT SOURCE CB)
    (ho : RunnablePipeline.object who top = some o) (he : o.end_fn_ ≠ EndFn.end_thread) :
    (RunnablePipeline.call_end_fn who top :
      Run (RunnablePipeline IN OUT SOURCE CB) (Event OUT CB SOURCE))
      = RunnablePipeline.call_plain o.end_fn_ who top := by
  cases hfn : o.end_fn_ with
  | end_thread => exact absurd hfn he
  | null => simp only [RunnablePipeline.call_end_fn, ho, hfn]
  | default_end => simp only [RunnablePipeline.call_end_fn, ho, hfn]
  | user cb => simp only [RunnablePipeline.call_end_fn, ho, hfn]

theorem RunnablePipeline.end_thread_get_calls (top : RunnablePipeline IN OUT SOURCE CB) :
    get_calls (top.end_thread :
      Run (RunnablePipeline IN OUT SOURCE CB) (Event OUT CB SOURCE)).trace = [] := by
  unfold RunnablePipeline.end_thread
  simp only
  split
  · exact RunnablePipeline.call_plain_get_calls _ _ _
  · rfl

theorem RunnablePipeline.call_end_fn_get_calls (who : Target)
    (top : RunnablePipeline IN OUT SOURCE CB) :
    get_calls (RunnablePipeline.call_end_fn who top :
      Run (RunnablePipeline IN OUT SOURCE CB) (Event OUT CB SOURCE)).trace = [] := by
  cases ho : RunnablePipeline.object who top with
  | none => simp only [RunnablePipeline.call_end_fn, ho]; rfl
  | some o =>
    by_cases he : o.end_fn_ = EndFn.end_thread
    · rw [RunnablePipeline.call_end_fn_end_thread who top o ho he]
      exact RunnablePipeline.end_thread_get_calls top
    · rw [RunnablePipeline.call_end_fn_plain who top o ho he]
      exact RunnablePipeline.call_plain_get_calls _ _ _

/-- The `get` calls of `run_internal` are those of its driver loop. -/
theorem RunnablePipeline.run_internal_get_calls (ops : SourceOps SOURCE IN) (fuel : Nat)
    (who : Target) (top o : RunnablePipeline IN OUT SOURCE CB)
    (ho : RunnablePipeline.object who top = some o) :
    get_calls (RunnablePipeline.run_internal ops fuel who top).trace
      = get_calls (driver_loop ops o.consumer_ fuel o.source_ :
          Run SOURCE (Event OUT CB SOURCE)).trace := by
  unfold RunnablePipeline.run_internal
  simp only [ho, StartablePipeline.get_source]
  cases hst : (driver_loop ops o.consumer_ fuel o.source_ :
      Run SOURCE (Event OUT CB SOURCE)).status <;>
    simp only [get_calls_append, RunnablePipeline.call_end_fn_get_calls, List.append_nil]

/-- A root with the default completion callback whose driver loop returns:
`run_internal` returns with the source advanced, the latch counted down once,
and the trace of the loop followed by the count down. -/
theorem RunnablePipeline.run_internal_default (ops : SourceOps SOURCE IN) (fuel : Nat)
    (top : RunnablePipeline IN OUT SOURCE CB) (hend : top.end_fn_ = EndFn.default_end)
    (hloop : (driver_loop ops top.consumer_ fuel top.source_ :
      Run SOURCE (Event OUT CB SOURCE)).status = Status.returned) :
    RunnablePipeline.run_internal ops fuel Target.this top =
      { status := Status.returned,
        state := { top with
          source_ := (driver_loop ops top.consumer_ fuel top.source_ :
            Run SOURCE (Event OUT CB SOURCE)).state,
          end_latch_ := countdown_latch.count_down top.end_latch_ },
        trace := (driver_loop ops top.consumer_ fuel top.source_).trace ++
          [Event.latch_count_down Target.this] } := by
  simp only [RunnablePipeline.run_internal, RunnablePipeline.object,
    StartablePipeline.get_source, hloop, RunnablePipeline.set_object,
    RunnablePipeline.call_end_fn, hend, RunnablePipeline.call_plain,
    RunnablePipeline.default_end]

/-- The serial `run()` of an instance with the default completion callback
whose driver loop returns. -/
theorem RunnablePipeline.run_default (ops : SourceOps SOURCE IN) (fuel : Nat)
    (self : RunnablePipeline IN OUT SOURCE CB) (hend : self.end_fn_ = EndFn.default_end)
    (hloop : (driver_loop ops self.consumer_ fuel self.source_ :
      Run SOURCE (Event OUT CB SOURCE)).status = Status.returned) :
    self.run ops fuel =
      { status := Status.returned,
        state := { self with
          n_threads_ := 0,
          source_ := (driver_loop ops self.consumer_ fuel self.source_ :
            Run SOURCE (Event OUT CB SOURCE)).state,
          end_latch_ := countdown_latch.count_down self.end_latch_ },
        trace := (if self.n_threads_ > 0 then [Event.warning] else []) ++
          ((driver_loop ops self.consumer_ fuel self.source_).trace ++
            [Event.latch_count_down Target.this]) } := by
  have h := RunnablePipeline.run_internal_default ops fuel { self with n_threads_ := 0 } hend hloop
  unfold RunnablePipeline.run
  simp only
  rw [h]

theorem deliveries_warning (c : Prop) [Decidable c] :
    deliveries (if c then [(Event.warning : Event OUT CB SOURCE)] else []) = [] := by
  split <;> rfl

theorem completions_warning (c : Prop) [Decidable c] :
    completions (if c then [(Event.warning : Event OUT CB SOURCE)] else []) = 0 := by
  split <;> rfl

/-- What a source yields before it reports closed is determined by the source. -/
theorem Yields.unique (ops : SourceOps SOURCE IN) (src : SOURCE) (xs ys : List IN)
    (h1 : Yields ops src xs) (h2 : Yields ops src ys) : xs = ys := by
  induction h1 generalizing ys with
  | closed src hc =>
    cases h2 with
    | closed _ _ => rfl
    | item _ _ _ h _ _ _ => rw [hc] at h; cases h
    | wait _ _ h _ _ => rw [hc] at h; cases h
  | item src x xs hc hv hx _ ih =>
    cases h2 with
    | closed _ h => rw [hc] at h; cases h
    | item _ y ys1 _ _ hy hrest =>
      rw [← hx, ← hy, ih ys1 hrest]
    | wait _ _ _ h _ => rw [hv] at h; cases h
  | wait src xs hc hv _ ih =>
    cases h2 with
    | closed _ h => rw [hc] at h; cases h
    | item _ _ _ _ h _ _ => rw [hv] at h; cases h
    | wait _ _ _ _ hrest => exact ih ys hrest

theorem list_source_yields (xs : List Nat) : Yields list_source xs xs := by
  induction xs with
  | nil => exact Yields.closed [] rfl
  | cons x rest ih => exact Yields.item (x :: rest) x rest rfl rfl rfl ih

theorem list_source_wait (s : List Nat) (_h : list_source.has_value s = false) :
    list_source.has_value (list_source.wait s) = true ∨
      list_source.is_closed (list_source.wait s) = true := by
  cases s with
  | nil => exact Or.inr rfl
  | cons x rest => exact Or.inl rfl

theorem list_source_stays_closed (s : List Nat) (h : list_source.is_closed s = true) :
    list_source.is_closed (list_source.wait s) = true := h

theorem hasty_source_wait (s : FedSource) (_h : hasty_source.has_value s = false) :
    hasty_source.has_value (hasty_source.wait s) = true ∨
      hasty_source.is_closed (hasty_source.wait s) = true := by
  obtain ⟨w, q, inc⟩ := s
  cases hq : (hasty_source.wait { wakeups := w, queue := q, incoming := inc }).queue with
  | nil =>
    refine Or.inr ?_
    show (hasty_source.wait { wakeups := w, queue := q, incoming := inc }).queue.isEmpty = true
    rw [hq]; rfl
  | cons x rest =>
    refine Or.inl ?_
    show (!(hasty_source.wait { wakeups := w, queue := q, incoming := inc }).queue.isEmpty)
      = true
    rw [hq]; rfl

/-- C1, as the code has it: for every function `f`, every thread count `n`
given to `Parallel`, and every source that yields `x1, ..., xk` and then
reports closed, provided its `wait` returns only once `has_value` or
`is_closed` is true and leaves a closed source closed, the zero-argument
`run()` on `Pipeline(f).Source(src).Consume(sink).Parallel(n)` returns (with
any fuel above `k`), hands exactly `f(x1), ..., f(xk)` to the sink in that
order, and then invokes the completion callback once, as the last event of
the run; the thread count is reset to 0. -/
theorem RunnablePipeline.run_delivers_in_order (ops : SourceOps SOURCE IN)
    (hwait : ∀ s, ops.has_value s = false →
      ops.has_value (ops.wait s) = true ∨ ops.is_closed (ops.wait s) = true)
    (hclosed : ∀ s, ops.is_closed s = true → ops.is_closed (ops.wait s) = true)
    (f : IN → OUT)
    (src : SOURCE) (xs : List IN) (n : Int) (hsrc : Yields ops src xs) (fuel : Nat)
    (hfuel : xs.length < fuel) :
    ((((Pipeline.new (tr1_function.of f)).Source src).Consume user_sink :
        RunnablePipeline IN OUT SOURCE CB).Parallel n |>.run ops fuel).status
      = Status.returned ∧
    (∃ before : List (Event OUT CB SOURCE),
      ((((Pipeline.new (tr1_function.of f)).Source src).Consume user_sink :
          RunnablePipeline IN OUT SOURCE CB).Parallel n |>.run ops fuel).trace
        = before ++ [Event.latch_count_down Target.this] ∧
      deliveries before = xs.map f ∧ completions before = 0) ∧
    deliveries ((((Pipeline.new (tr1_function.of f)).Source src).Consume user_sink :
        RunnablePipeline IN OUT SOURCE CB).Parallel n |>.run ops fuel).trace = xs.map f ∧
    completions ((((Pipeline.new (tr1_function.of f)).Source src).Consume user_sink :
        RunnablePipeline IN OUT SOURCE CB).Parallel n |>.run ops fuel).trace = 1 ∧
    ((((Pipeline.new (tr1_function.of f)).Source src).Consume user_sink :
        RunnablePipeline IN OUT SOURCE CB).Parallel n |>.run ops fuel).state.n_threads_ = 0 ∧
    ((((Pipeline.new (tr1_function.of f)).Source src).Consume user_sink :
        RunnablePipeline IN OUT SOURCE CB).Parallel n |>.run ops fuel).state.end_latch_
      = 0 := by
  have hcons : ∀ x, tr1_function.call (some (terminate (tr1_function.of f) user_sink) :
      tr1_function IN (List OUT)) x = Except.ok [f x] := fun _ => rfl
  obtain ⟨hst, hdel⟩ := @driver_loop_yields IN OUT SOURCE CB ops hwait hclosed _ f hcons src xs
    hsrc fuel hfuel
  have hcompl := @driver_loop_completions IN OUT SOURCE CB ops
    (some (terminate (tr1_function.of f) user_sink)) fuel src
  rw [RunnablePipeline.run_default ops fuel _ rfl hst]
  refine ⟨rfl, ⟨_, (List.append_assoc _ _ _).symm, ?_, ?_⟩, ?_, ?_, rfl, rfl⟩
  · rw [deliveries_append, deliveries_warning, List.nil_append]
    exact hdel
  · rw [completions_append, completions_warning, Nat.zero_add]
    exact hcompl
  · rw [deliveries_append, deliveries_append, deliveries_warning, List.nil_append]
    show deliveries _ ++ [] = _
    rw [List.append_nil]
    exact hdel
  · rw [completions_append, completions_append, completions_warning, Nat.zero_add,
      driver_loop_completions]
    rfl

/-- Witness for C1 as amended: `Pipeline(x -> 10 * x).Source([1, 2, 3]).Consume(sink).Parallel(2)`
over the list source, whose `wait` changes nothing, run serially delivers
10, 20, 30 and completes once. -/
theorem RunnablePipeline.run_delivers_in_order_witness :
    (∀ s, list_source.has_value s = false →
      list_source.has_value (list_source.wait s) = true ∨
        list_source.is_closed (list_source.wait s) = true) ∧
    (∀ s, list_source.is_closed s = true →
      list_source.is_closed (list_source.wait s) = true) ∧
    Yields list_source [1, 2, 3] [1, 2, 3] ∧
    ((sample_pipeline.Parallel 2).run list_source 4).status = Status.returned ∧
    deliveries ((sample_pipeline.Parallel 2).run list_source 4).trace = [10, 20, 30] ∧
    completions ((sample_pipeline.Parallel 2).run list_source 4).trace = 1 :=
  ⟨list_source_wait, list_source_stays_closed, list_source_yields _,
   (RunnablePipeline.run_delivers_in_order list_source list_source_wait
      list_source_stays_closed (fun x => 10 * x) [1, 2, 3] [1, 2, 3] 2
      (list_source_yields _) 4 (by decide)).1,
   (RunnablePipeline.run_delivers_in_order list_source list_source_wait
      list_source_stays_closed (fun x => 10 * x) [1, 2, 3] [1, 2, 3] 2
      (list_source_yields _) 4 (by decide)).2.2.1,
   (RunnablePipeline.run_delivers_in_order list_source list_source_wait
      list_source_stays_closed (fun x => 10 * x) [1, 2, 3] [1, 2, 3] 2
      (list_source_yields _) 4 (by decide)).2.2.2.1⟩

/-- C1 as stated fails, in two ways.  The source fed by another thread yields
7 and then reports closed, but its first `wait` returns before 7 has arrived
and `run()` hands 0 and then 70 to the sink instead of 70 alone.  The hasty
source reports closed at once, so it yields nothing before it reports closed,
and its `wait` does return only with a value or closed; but `run()` waits
before it asks `is_closed`, the wait re-opens the source, and 70 is handed to
the sink. -/
theorem RunnablePipeline.run_delivers_unyielded_values :
    (Yields fed_source { wakeups := 1, queue := [], incoming := [7] } [7] ∧
      ((fed_pipeline.Parallel 0).run fed_source 4).status = Status.returned ∧
      deliveries ((fed_pipeline.Parallel 0).run fed_source 4).trace = [0, 70] ∧
      deliveries ((fed_pipeline.Parallel 0).run fed_source 4).trace
        ≠ [7].map (fun x => 10 * x)) ∧
    (Yields hasty_source { wakeups := 0, queue := [], incoming := [7] } [] ∧
      (∀ s, hasty_source.has_value s = false →
        hasty_source.has_value (hasty_source.wait s) = true ∨
          hasty_source.is_closed (hasty_source.wait s) = true) ∧
      ((hasty_pipeline.Parallel 0).run hasty_source 4).status = Status.returned ∧
      deliveries ((hasty_pipeline.Parallel 0).run hasty_source 4).trace = [70] ∧
      deliveries ((hasty_pipeline.Parallel 0).run hasty_source 4).trace
        ≠ ([] : List Nat).map (fun x => 10 * x)) := by
  refine ⟨⟨?_, rfl, by decide, by decide⟩, ⟨Yields.closed _ rfl, hasty_source_wait, rfl,
    by decide, by decide⟩⟩
  exact Yields.wait _ _ rfl rfl
    (Yields.wait _ _ rfl rfl (Yields.item _ 7 [] rfl rfl rfl (Yields.closed _ rfl)))

/-! ## The driver loop: when `get` is called -/

/-- C9, as the code has it: for a source whose `wait` returns only once a value
is available or the source is closed, every `get` made by `run_internal`, by
any object and however far the loop gets, is made in a source state where
`has_value` is true and `is_closed` is false. -/
theorem RunnablePipeline.run_internal_get_only_with_value (ops : SourceOps SOURCE IN)
    (hwait : ∀ s, ops.has_value s = false →
      ops.has_value (ops.wait s) = true ∨ ops.is_closed (ops.wait s) = true)
    (fuel : Nat) (who : Target) (top : RunnablePipeline IN OUT SOURCE CB) :
    ∀ s ∈ get_calls (RunnablePipeline.run_internal ops fuel who top).trace,
      ops.has_value s = true ∧ ops.is_closed s = false := by
  cases ho : RunnablePipeline.object who top with
  | none =>
    intro s hs
    simp only [RunnablePipeline.run_internal, ho] at hs
    cases hs
  | some o =>
    rw [RunnablePipeline.run_internal_get_calls ops fuel who top o ho]
    exact driver_loop_get_calls ops hwait o.consumer_ fuel o.source_

/-- Witness for C9 as amended: the list source, whose `wait` returns on a closed
source, under the sample pipeline. -/
theorem RunnablePipeline.run_internal_get_only_with_value_witness :
    (∀ s, list_source.has_value s = false →
      list_source.has_value (list_source.wait s) = true ∨
        list_source.is_closed (list_source.wait s) = true) ∧
    (∀ s ∈ get_calls (RunnablePipeline.run_internal list_source 4 Target.this
        sample_pipeline).trace,
      list_source.has_value s = true ∧ list_source.is_closed s = false) :=
  ⟨list_source_wait,
   RunnablePipeline.run_internal_get_only_with_value list_source list_source_wait 4
     Target.this sample_pipeline⟩

/-- C9 as stated fails: on a source whose first `wait` returns before the item
has arrived, the driver loop calls `get` in a state where `has_value` is false. -/
theorem RunnablePipeline.run_internal_get_without_value :
    get_calls (RunnablePipeline.run_internal fed_source 4 Target.this fed_pipeline).trace
      = [{ wakeups := 0, queue := [], incoming := [7] },
         { wakeups := 0, queue := [7], incoming := [] }] ∧
    fed_source.has_value { wakeups := 0, queue := [], incoming := [7] } = false ∧
    ¬ (∀ s ∈ get_calls
        (RunnablePipeline.run_internal fed_source 4 Target.this fed_pipeline).trace,
      fed_source.has_value s = true ∧ fed_source.is_closed s = false) := by
  have h1 : get_calls
      (RunnablePipeline.run_internal fed_source 4 Target.this fed_pipeline).trace
      = [{ wakeups := 0, queue := [], incoming := [7] },
         { wakeups := 0, queue := [7], incoming := [] }] := by decide
  refine ⟨h1, rfl, ?_⟩
  intro h
  have h2 := (h { wakeups := 0, queue := [], incoming := [7] } (by rw [h1]; simp)).1
  cases h2

/-! ## `run(pool)` with a positive thread count -/

theorem RunnablePipeline.new_child_children (self : RunnablePipeline IN OUT SOURCE CB)
    (cs : List (RunnablePipeline IN OUT SOURCE CB)) :
    RunnablePipeline.new_child { self with children_ := cs } = RunnablePipeline.new_child self :=
  rfl

theorem dispatch_length (base : Nat) (ws : List mutable_thread) :
    (dispatch base ws).length = ws.length := by
  induction ws generalizing base with
  | nil => rfl
  | cons w rest ih => simp only [dispatch, List.length_cons, ih]

theorem dispatch_workers (base : Nat) (ws : List mutable_thread) :
    (dispatch base ws).map Prod.fst = ws := by
  induction ws generalizing base with
  | nil => rfl
  | cons w rest ih => simp only [dispatch, List.map_cons, ih]

theorem dispatch_tasks (base : Nat) (ws : List mutable_thread) :
    (dispatch base ws).map Prod.snd
      = (List.range' base ws.length).map (fun i => ({ target := Target.child i } : Task)) := by
  induction ws generalizing base with
  | nil => rfl
  | cons w rest ih => simp only [dispatch, List.map_cons, ih, List.length_cons, List.range'_succ]

/-- The loop of `run(pool)` when the first `k` idle workers accept their task. -/
theorem RunnablePipeline.run_pool_loop_accepting (k : Nat) (st : PoolState IN OUT SOURCE CB)
    (ws rest : List mutable_thread) (hpool : st.pool.unused = ws ++ rest)
    (hlen : ws.length = k) (hacc : ∀ w ∈ ws, w.accepts = true) :
    (RunnablePipeline.run_pool_loop k st :
      Run (PoolState IN OUT SOURCE CB) (Event OUT CB SOURCE)) =
      { status := Status.returned,
        state :=
          { self := { st.self with
              children_ := st.self.children_ ++ List.replicate k st.self.new_child },
            pool := { unused := rest },
            submitted := st.submitted ++ dispatch st.self.children_.length ws },
        trace := [] } := by
  induction k generalizing st ws with
  | zero =>
    have hws : ws = [] := List.length_eq_zero.mp hlen
    subst hws
    obtain ⟨self, pool, submitted⟩ := st
    obtain ⟨unused⟩ := pool
    simp only [List.nil_append] at hpool
    subst hpool
    cases self
    simp [RunnablePipeline.run_pool_loop, dispatch]
  | succ k ih =>
    cases ws with
    | nil => simp at hlen
    | cons w ws1 =>
      have hw : w.accepts = true := hacc w (List.mem_cons_self _ _)
      have hlen1 : ws1.length = k := by simpa using hlen
      have hacc1 : ∀ v ∈ ws1, v.accepts = true := fun v hv => hacc v (List.mem_cons_of_mem _ hv)
      rw [RunnablePipeline.run_pool_loop]
      simp only [simple_thread_pool.try_get_unused_thread, hpool, List.cons_append,
        mutable_thread.execute, hw, Bool.not_true]
      rw [if_neg (by simp)]
      rw [ih _ ws1 rfl hlen1 hacc1]
      simp only [List.length_append, List.length_singleton, List.append_assoc, dispatch,
        List.singleton_append, List.replicate_succ]
      rfl

/-- The loop of `run(pool)` when every idle worker accepts but there are fewer
of them than iterations: it throws when the pool runs dry. -/
theorem RunnablePipeline.run_pool_loop_exhausted (k : Nat) (st : PoolState IN OUT SOURCE CB)
    (ws : List mutable_thread) (hpool : st.pool.unused = ws)
    (hlen : ws.length < k) (hacc : ∀ w ∈ ws, w.accepts = true) :
    (RunnablePipeline.run_pool_loop k st :
      Run (PoolState IN OUT SOURCE CB) (Event OUT CB SOURCE)) =
      { status := Status.threw Exn.std_exception,
        state :=
          { self := { st.self with
              children_ := st.self.children_ ++ List.replicate ws.length st.self.new_child },
            pool := { unused := [] },
            submitted := st.submitted ++ dispatch st.self.children_.length ws },
        trace := [] } := by
  induction ws generalizing k st with
  | nil =>
    obtain ⟨k1, rfl⟩ : ∃ k1, k = k1 + 1 := ⟨k - 1, by simp at hlen; omega⟩
    obtain ⟨self, pool, submitted⟩ := st
    obtain ⟨unused⟩ := pool
    simp only at hpool
    subst hpool
    cases self
    simp [RunnablePipeline.run_pool_loop, simple_thread_pool.try_get_unused_thread, dispatch]
  | cons w ws1 ih =>
    obtain ⟨k1, rfl⟩ : ∃ k1, k = k1 + 1 := ⟨k - 1, by simp at hlen; omega⟩
    have hw : w.accepts = true := hacc w (List.mem_cons_self _ _)
    have hlen1 : ws1.length < k1 := by simp only [List.length_cons] at hlen; omega
    have hacc1 : ∀ v ∈ ws1, v.accepts = true := fun v hv => hacc v (List.mem_cons_of_mem _ hv)
    rw [RunnablePipeline.run_pool_loop]
    simp only [simple_thread_pool.try_get_unused_thread, hpool, mutable_thread.execute, hw,
      Bool.not_true]
    rw [if_neg (by simp)]
    rw [ih k1 _ rfl hlen1 hacc1]
    simp only [List.length_append, List.length_singleton, List.append_assoc, dispatch,
      List.singleton_append, List.replicate_succ, List.length_cons]
    rfl

/-- The loop of `run(pool)` when the workers `ws` accept and the next idle
worker rejects its task: it throws after having stored the child of that
iteration, which is not submitted. -/
theorem RunnablePipeline.run_pool_loop_rejected (k : Nat) (st : PoolState IN OUT SOURCE CB)
    (ws : List mutable_thread) (t : mutable_thread) (rest : List mutable_thread)
    (hpool : st.pool.unused = ws ++ t :: rest) (ht : t.accepts = false)
    (hlen : ws.length < k) (hacc : ∀ w ∈ ws, w.accepts = true) :
    (RunnablePipeline.run_pool_loop k st :
      Run (PoolState IN OUT SOURCE CB) (Event OUT CB SOURCE)) =
      { status := Status.threw Exn.std_exception,
        state :=
          { self := { st.self with
              children_ := st.self.children_ ++
                List.replicate (ws.length + 1) st.self.new_child },
            pool := { unused := rest },
            submitted := st.submitted ++ dispatch st.self.children_.length ws },
        trace := [] } := by
  induction ws generalizing k st with
  | nil =>
    obtain ⟨k1, rfl⟩ : ∃ k1, k = k1 + 1 := ⟨k - 1, by simp at hlen; omega⟩
    rw [RunnablePipeline.run_pool_loop]
    simp only [simple_thread_pool.try_get_unused_thread, hpool, List.nil_append,
      mutable_thread.execute, ht, Bool.not_false, if_true, dispatch, List.append_nil,
      List.length_nil, Nat.zero_add, List.replicate_one]
    rfl
  | cons w ws1 ih =>
    obtain ⟨k1, rfl⟩ : ∃ k1, k = k1 + 1 := ⟨k - 1, by simp at hlen; omega⟩
    have hw : w.accepts = true := hacc w (List.mem_cons_self _ _)
    have hlen1 : ws1.length < k1 := by simp only [List.length_cons] at hlen; omega
    have hacc1 : ∀ v ∈ ws1, v.accepts = true := fun v hv => hacc v (List.mem_cons_of_mem _ hv)
    rw [RunnablePipeline.run_pool_loop]
    simp only [simple_thread_pool.try_get_unused_thread, hpool, List.cons_append,
      mutable_thread.execute, hw, Bool.not_true]
    rw [if_neg (by simp)]
    rw [ih k1 _ rfl hlen1 hacc1]
    simp only [List.length_append, List.length_singleton, List.append_assoc, dispatch,
      List.singleton_append, List.replicate_succ, List.length_cons]
    rfl

theorem RunnablePipeline.Parallel_fields (r : RunnablePipeline IN OUT SOURCE CB) (n : Int) :
    (r.Parallel n).n_threads_ = n ∧ (r.Parallel n).children_ = [] ∧
    (r.Parallel n).consumer_ = r.consumer_ ∧ (r.Parallel n).source_ = r.source_ ∧
    (r.Parallel n).fn_ = r.fn_ ∧ (r.Parallel n).end_latch_ = 1 ∧
    (r.Parallel n).end_fn_ = (if r.default_end_ then EndFn.default_end else r.end_fn_) := by
  cases hd : r.default_end_ <;>
    simp [RunnablePipeline.Parallel, RunnablePipeline.with_n_threads,
      RunnablePipeline.set_end_fn, RunnablePipeline.set_default_end_fn, hd]

theorem RunnablePipeline.new_child_fields (self : RunnablePipeline IN OUT SOURCE CB) :
    self.new_child.n_threads_ = 0 ∧ self.new_child.children_ = [] ∧
    self.new_child.consumer_ = self.consumer_ ∧ self.new_child.source_ = self.source_ ∧
    self.new_child.fn_ = self.fn_ ∧ self.new_child.end_fn_ = EndFn.end_thread := by
  cases hd : self.default_end_ <;>
    simp [RunnablePipeline.new_child, RunnablePipeline.copy,
      RunnablePipeline.set_end_fn, RunnablePipeline.set_default_end_fn, hd]

/-- On an instance with a positive thread count `run(pool)` enters the loop
with the counter set to the thread count. -/
theorem RunnablePipeline.run_pool_positive (self : RunnablePipeline IN OUT SOURCE CB)
    (n : Nat) (hn : 0 < n) (hself : self.n_threads_ = n) (pool : simple_thread_pool) :
    (self.run_pool pool : Run (PoolState IN OUT SOURCE CB) (Event OUT CB SOURCE)) =
      RunnablePipeline.run_pool_loop n
        { self := { self with count_ := n }, pool := pool, submitted := [] } := by
  have h0 : ¬ ((n : Int) = 0) := by omega
  have h1 : ¬ ((n : Int) < 0) := by omega
  unfold RunnablePipeline.run_pool
  simp only [hself, h0, h1, if_false, Int.toNat_ofNat]

theorem RunnablePipeline.call_plain_source (fn : EndFn CB) (i : Nat)
    (top : RunnablePipeline IN OUT SOURCE CB) :
    (RunnablePipeline.call_plain fn Target.this top :
      Run _ (Event OUT CB SOURCE)).state.source_ = top.source_ ∧
    (RunnablePipeline.call_plain fn (Target.child i) top :
      Run _ (Event OUT CB SOURCE)).state.source_ = top.source_ := by
  cases fn with
  | null => exact ⟨rfl, rfl⟩
  | default_end =>
    refine ⟨rfl, ?_⟩
    simp only [RunnablePipeline.call_plain, RunnablePipeline.default_end,
      RunnablePipeline.object]
    cases top.children_[i]? <;> rfl
  | user cb => exact ⟨rfl, rfl⟩
  | end_thread => exact ⟨rfl, rfl⟩

theorem RunnablePipeline.end_thread_source (top : RunnablePipeline IN OUT SOURCE CB) :
    (top.end_thread : Run _ (Event OUT CB SOURCE)).state.source_ = top.source_ := by
  unfold RunnablePipeline.end_thread
  simp only
  split
  · exact (RunnablePipeline.call_plain_source _ 0 _).1
  · rfl

/-- A child's `run_internal` never touches the source object of its parent,
whatever its outcome. -/
theorem RunnablePipeline.run_internal_child_source (ops : SourceOps SOURCE IN) (fuel : Nat)
    (i : Nat) (top : RunnablePipeline IN OUT SOURCE CB) :
    (RunnablePipeline.run_internal ops fuel (Target.child i) top).state.source_
      = top.source_ := by
  have hcall : ∀ t : RunnablePipeline IN OUT SOURCE CB,
      (RunnablePipeline.call_end_fn (Target.child i) t :
        Run _ (Event OUT CB SOURCE)).state.source_ = t.source_ := by
    intro t
    cases ho : RunnablePipeline.object (Target.child i) t with
    | none => simp only [RunnablePipeline.call_end_fn, ho]
    | some o =>
      by_cases he : o.end_fn_ = EndFn.end_thread
      · rw [RunnablePipeline.call_end_fn_end_thread _ t o ho he]
        exact RunnablePipeline.end_thread_source t
      · rw [RunnablePipeline.call_end_fn_plain _ t o ho he]
        exact (RunnablePipeline.call_plain_source _ i t).2
  unfold RunnablePipeline.run_internal
  cases ho : RunnablePipeline.object (Target.child i) top with
  | none => rfl
  | some o =>
    simp only
    cases hst : (driver_loop ops o.consumer_ fuel o.toStartablePipeline.get_source :
        Run SOURCE (Event OUT CB SOURCE)).status
    · simp only
      rw [hcall]
      rfl
    · rfl
    · rfl
    · rfl

/-- C6: for `n > 0` and a pool whose first `n` idle workers `ws` accept their
task, `run(pool)` on `r.Parallel(n)` returns; it leaves exactly `n` children,
each with thread count 0, the parent's consumer, composed function and a copy
of its source, and a completion callback that runs the parent's `end_thread`;
the `n` submitted tasks are the `run_internal` of child `0, ..., n - 1`, the
i-th on the i-th acquired worker; the counter is `n`; and `run(pool)` itself
performs no event at all (so no call on the parent's source, which is
unchanged), submits no task that runs on the parent, and no submitted task
changes the parent's source when it runs. -/
theorem RunnablePipeline.run_pool_spawns_children (r : RunnablePipeline IN OUT SOURCE CB)
    (n : Nat) (hn : 0 < n) (pool : simple_thread_pool) (ws rest : List mutable_thread)
    (hpool : pool.unused = ws ++ rest) (hlen : ws.length = n)
    (hacc : ∀ w ∈ ws, w.accepts = true) :
    ((r.Parallel n).run_pool pool).status = Status.returned ∧
    ((r.Parallel n).run_pool pool).state.self.children_.length = n ∧
    (∀ c ∈ ((r.Parallel n).run_pool pool).state.self.children_,
      c.n_threads_ = 0 ∧ c.consumer_ = (r.Parallel n).consumer_ ∧
      c.fn_ = (r.Parallel n).fn_ ∧ c.source_ = (r.Parallel n).source_ ∧
      c.end_fn_ = EndFn.end_thread) ∧
    (∀ i, i < n →
      (RunnablePipeline.call_end_fn (Target.child i)
          ((r.Parallel n).run_pool pool).state.self :
        Run (RunnablePipeline IN OUT SOURCE CB) (Event OUT CB SOURCE))
      = ((r.Parallel n).run_pool pool).state.self.end_thread) ∧
    ((r.Parallel n).run_pool pool).state.submitted.length = n ∧
    ((r.Parallel n).run_pool pool).state.submitted.map Prod.fst = ws ∧
    ((r.Parallel n).run_pool pool).state.submitted.map Prod.snd
      = (List.range n).map (fun i => ({ target := Target.child i } : Task)) ∧
    (∀ f ∈ ((r.Parallel n).run_pool pool).state.submitted, f.2.target ≠ Target.this) ∧
    ((r.Parallel n).run_pool pool).state.self.count_ = n ∧
    ((r.Parallel n).run_pool pool).state.pool.unused = rest ∧
    (((r.Parallel n).run_pool pool).trace : List (Event OUT CB SOURCE)) = [] ∧
    ((r.Parallel n).run_pool pool).state.self.source_ = (r.Parallel n).source_ ∧
    (∀ (ops : SourceOps SOURCE IN) (fuel : Nat),
      ∀ f ∈ ((r.Parallel n).run_pool pool).state.submitted,
        (RunnablePipeline.run_task ops fuel f.2
          ((r.Parallel n).run_pool pool).state.self).state.source_
          = (r.Parallel n).source_) := by
  obtain ⟨hP1, hP2, -⟩ := r.Parallel_fields n
  rw [RunnablePipeline.run_pool_positive _ n hn hP1,
    RunnablePipeline.run_pool_loop_accepting n _ ws rest hpool hlen hacc]
  simp only [hP2, List.nil_append, List.length_replicate, List.length_nil]
  have hmem : ∀ f ∈ dispatch 0 ws, f.2.target ≠ Target.this := by
    intro f hf
    have h1 : f.2 ∈ (dispatch 0 ws).map Prod.snd := List.mem_map_of_mem _ hf
    rw [dispatch_tasks] at h1
    obtain ⟨i, -, hi⟩ := List.mem_map.mp h1
    rw [← hi]
    exact fun h => by cases h
  refine ⟨trivial, trivial, ?_, ?_, ?_, dispatch_workers 0 ws, ?_, hmem, trivial, trivial,
    trivial, trivial, ?_⟩
  · intro c hc
    rw [List.eq_of_mem_replicate hc]
    obtain ⟨h1, -, h3, h4, h5, h6⟩ :=
      RunnablePipeline.new_child_fields ({ r.Parallel n with count_ := n })
    exact ⟨h1, h3, h5, h4, h6⟩
  · intro i hi
    refine RunnablePipeline.call_end_fn_end_thread _ _
      (RunnablePipeline.new_child ({ r.Parallel n with count_ := n })) ?_ rfl
    simp only [RunnablePipeline.object, List.getElem?_replicate, hi, if_true]
    rfl
  · rw [dispatch_length, hlen]
  · rw [dispatch_tasks, hlen, List.range_eq_range']
  · intro ops fuel f hf
    have h1 : f.2 ∈ (dispatch 0 ws).map Prod.snd := List.mem_map_of_mem _ hf
    rw [dispatch_tasks] at h1
    obtain ⟨i, -, hi⟩ := List.mem_map.mp h1
    rw [← hi]
    exact RunnablePipeline.run_internal_child_source ops fuel i _

/-- Witness for C6: `Parallel(2)` of the sample pipeline on a pool of three willing workers. -/
theorem RunnablePipeline.run_pool_spawns_children_witness :
    (0 < 2) ∧ (willing_pool 3).unused
      = [{ id := 0, accepts := true }, { id := 1, accepts := true }] ++
        [{ id := 2, accepts := true }] ∧
    ((sample_pipeline.Parallel 2).run_pool (willing_pool 3)).status = Status.returned ∧
    ((sample_pipeline.Parallel 2).run_pool (willing_pool 3)).state.self.children_.length = 2 ∧
    ((sample_pipeline.Parallel 2).run_pool (willing_pool 3)).state.self.count_ = 2 :=
  ⟨by decide, rfl,
   (RunnablePipeline.run_pool_spawns_children sample_pipeline 2 (by decide) (willing_pool 3)
      [{ id := 0, accepts := true }, { id := 1, accepts := true }]
      [{ id := 2, accepts := true }] rfl rfl (by decide)).1,
   (RunnablePipeline.run_pool_spawns_children sample_pipeline 2 (by decide) (willing_pool 3)
      [{ id := 0, accepts := true }, { id := 1, accepts := true }]
      [{ id := 2, accepts := true }] rfl rfl (by decide)).2.1,
   (RunnablePipeline.run_pool_spawns_children sample_pipeline 2 (by decide) (willing_pool 3)
      [{ id := 0, accepts := true }, { id := 1, accepts := true }]
      [{ id := 2, accepts := true }] rfl rfl (by decide)).2.2.2.2.2.2.2.2.1⟩

/-- C7: for a pool that exposes only `k < n` idle workers, each accepting its
task, `run(pool)` on `r.Parallel(n)` throws `std::exception` (the failure the
spec calls ResourceExhausted), and at that point exactly `k` children have
been created and exactly `k` tasks submitted, the `run_internal` of child
`0, ..., k - 1`, one on each worker of the pool. -/
theorem RunnablePipeline.run_pool_exhausts_pool (r : RunnablePipeline IN OUT SOURCE CB)
    (n k : Nat) (hk : k < n) (pool : simple_thread_pool) (hlen : pool.unused.length = k)
    (hacc : ∀ w ∈ pool.unused, w.accepts = true) :
    ((r.Parallel n).run_pool pool :
      Run (PoolState IN OUT SOURCE CB) (Event OUT CB SOURCE)).status
      = Status.threw Exn.std_exception ∧
    ((r.Parallel n).run_pool pool :
      Run (PoolState IN OUT SOURCE CB) (Event OUT CB SOURCE)).state.self.children_.length = k ∧
    ((r.Parallel n).run_pool pool :
      Run (PoolState IN OUT SOURCE CB) (Event OUT CB SOURCE)).state.submitted.length = k ∧
    ((r.Parallel n).run_pool pool :
      Run (PoolState IN OUT SOURCE CB) (Event OUT CB SOURCE)).state.submitted.map Prod.fst
      = pool.unused ∧
    ((r.Parallel n).run_pool pool :
      Run (PoolState IN OUT SOURCE CB) (Event OUT CB SOURCE)).state.submitted.map Prod.snd
      = (List.range k).map (fun i => ({ target := Target.child i } : Task)) ∧
    ((r.Parallel n).run_pool pool :
      Run (PoolState IN OUT SOURCE CB) (Event OUT CB SOURCE)).state.pool.unused = [] := by
  obtain ⟨hP1, hP2, -⟩ := r.Parallel_fields n
  rw [RunnablePipeline.run_pool_positive _ n (by omega) hP1,
    RunnablePipeline.run_pool_loop_exhausted n _ pool.unused rfl (by omega) hacc]
  simp only [hP2, List.nil_append, List.length_replicate, List.length_nil]
  refine ⟨trivial, hlen, ?_, dispatch_workers 0 _, ?_, trivial⟩
  · rw [dispatch_length, hlen]
  · rw [dispatch_tasks, hlen, List.range_eq_range']

/-- Witness for C7: `Parallel(5)` of the sample pipeline on a pool of three willing workers. -/
theorem RunnablePipeline.run_pool_exhausts_pool_witness :
    (3 < 5) ∧ (willing_pool 3).unused.length = 3 ∧
    ((sample_pipeline.Parallel 5).run_pool (willing_pool 3) :
      Run (PoolState Nat Nat (List Nat) Unit) (Event Nat Unit (List Nat))).status
      = Status.threw Exn.std_exception ∧
    ((sample_pipeline.Parallel 5).run_pool (willing_pool 3) :
      Run (PoolState Nat Nat (List Nat) Unit)
        (Event Nat Unit (List Nat))).state.self.children_.length = 3 ∧
    ((sample_pipeline.Parallel 5).run_pool (willing_pool 3) :
      Run (PoolState Nat Nat (List Nat) Unit)
        (Event Nat Unit (List Nat))).state.submitted.length = 3 :=
  ⟨by decide, rfl,
   (RunnablePipeline.run_pool_exhausts_pool sample_pipeline 5 3 (by decide) (willing_pool 3)
      rfl (by decide)).1,
   (RunnablePipeline.run_pool_exhausts_pool sample_pipeline 5 3 (by decide) (willing_pool 3)
      rfl (by decide)).2.1,
   (RunnablePipeline.run_pool_exhausts_pool sample_pipeline 5 3 (by decide) (willing_pool 3)
      rfl (by decide)).2.2.1⟩

/-! ## Completion fan-in: `end_thread` -/

theorem RunnablePipeline.end_thread_pending (top : RunnablePipeline IN OUT SOURCE CB)
    (h : top.count_ - 1 ≠ 0) :
    (top.end_thread : Run (RunnablePipeline IN OUT SOURCE CB) (Event OUT CB SOURCE)) =
      { status := Status.returned, state := { top with count_ := top.count_ - 1 },
        trace := [] } := by
  simp only [RunnablePipeline.end_thread, h, if_false]

theorem RunnablePipeline.end_thread_last_default (top : RunnablePipeline IN OUT SOURCE CB)
    (h : top.count_ - 1 = 0) (he : top.end_fn_ = EndFn.default_end) :
    (top.end_thread : Run (RunnablePipeline IN OUT SOURCE CB) (Event OUT CB SOURCE)) =
      { status := Status.returned,
        state := { top with count_ := top.count_ - 1,
                            end_latch_ := countdown_latch.count_down top.end_latch_ },
        trace := [Event.latch_count_down Target.this] } := by
  simp only [RunnablePipeline.end_thread, h, if_true, he, RunnablePipeline.call_plain,
    RunnablePipeline.default_end, RunnablePipeline.object, RunnablePipeline.set_object]

theorem RunnablePipeline.end_thread_last_user (top : RunnablePipeline IN OUT SOURCE CB)
    (cb : CB) (h : top.count_ - 1 = 0) (he : top.end_fn_ = EndFn.user cb) :
    (top.end_thread : Run (RunnablePipeline IN OUT SOURCE CB) (Event OUT CB SOURCE)) =
      { status := Status.returned, state := { top with count_ := top.count_ - 1 },
        trace := [Event.on_end cb] } := by
  simp only [RunnablePipeline.end_thread, h, if_true, he, RunnablePipeline.call_plain]

/-- The `run_internal` of a child whose callback is `end_thread` and whose driver
loop returns: the loop, the child's source written back, then the parent's
`end_thread`. -/
theorem RunnablePipeline.run_internal_child (ops : SourceOps SOURCE IN) (fuel : Nat)
    (top : RunnablePipeline IN OUT SOURCE CB) (i : Nat) (o : RunnablePipeline IN OUT SOURCE CB)
    (ho : top.children_[i]? = some o) (he : o.end_fn_ = EndFn.end_thread)
    (hloop : (driver_loop ops o.consumer_ fuel o.source_ :
      Run SOURCE (Event OUT CB SOURCE)).status = Status.returned) :
    RunnablePipeline.run_internal ops fuel (Target.child i) top =
      { status := (RunnablePipeline.end_thread { top with children_ := (top.children_.set i
            ({ o with source_ := (driver_loop ops o.consumer_ fuel o.source_ :
                Run SOURCE (Event OUT CB SOURCE)).state })) } :
            Run (RunnablePipeline IN OUT SOURCE CB) (Event OUT CB SOURCE)).status,
        state := (RunnablePipeline.end_thread { top with children_ := (top.children_.set i
            ({ o with source_ := (driver_loop ops o.consumer_ fuel o.source_ :
                Run SOURCE (Event OUT CB SOURCE)).state })) } :
            Run (RunnablePipeline IN OUT SOURCE CB) (Event OUT CB SOURCE)).state,
        trace := (driver_loop ops o.consumer_ fuel o.source_).trace ++
          (RunnablePipeline.end_thread { top with children_ := (top.children_.set i
            ({ o with source_ := (driver_loop ops o.consumer_ fuel o.source_ :
                Run SOURCE (Event OUT CB SOURCE)).state })) } :
            Run (RunnablePipeline IN OUT SOURCE CB) (Event OUT CB SOURCE)).trace } := by
  have hi : i < top.children_.length := (List.getElem?_eq_some.mp ho).1
  have hobj : RunnablePipeline.object (Target.child i)
      { top with children_ := (top.children_.set i
        ({ o with source_ := (driver_loop ops o.consumer_ fuel o.source_ :
            Run SOURCE (Event OUT CB SOURCE)).state })) }
      = some { o with source_ := (driver_loop ops o.consumer_ fuel o.source_ :
            Run SOURCE (Event OUT CB SOURCE)).state } := by
    simp only [RunnablePipeline.object, List.getElem?_set_self hi]
  have hend := RunnablePipeline.call_end_fn_end_thread (Target.child i) _ _ hobj he
  simp only [RunnablePipeline.run_internal, RunnablePipeline.object, ho,
    StartablePipeline.get_source, hloop, RunnablePipeline.set_object]
  rw [hend]

/-- One call of `end_thread` on a parent whose counter is `c > 0` (and, when
`c = 1`, whose completion callback is the default one or a user callback): the
counter becomes `c - 1`, and the callback is invoked exactly when that is 0. -/
theorem RunnablePipeline.end_thread_counts (top : RunnablePipeline IN OUT SOURCE CB)
    (c : Nat) (hc : top.count_ = (c : Int)) (hpos : 0 < c)
    (hE : c = 1 → top.end_fn_ = EndFn.default_end ∨ ∃ cb, top.end_fn_ = EndFn.user cb) :
    (top.end_thread : Run (RunnablePipeline IN OUT SOURCE CB) (Event OUT CB SOURCE)).status
      = Status.returned ∧
    (top.end_thread : Run _ (Event OUT CB SOURCE)).state.count_ = ((c - 1 : Nat) : Int) ∧
    (top.end_thread : Run _ (Event OUT CB SOURCE)).state.end_fn_ = top.end_fn_ ∧
    (top.end_thread : Run _ (Event OUT CB SOURCE)).state.source_ = top.source_ ∧
    (top.end_thread : Run _ (Event OUT CB SOURCE)).state.children_ = top.children_ ∧
    completions (top.end_thread : Run _ (Event OUT CB SOURCE)).trace
      = (if c = 1 then 1 else 0) ∧
    (c ≠ 1 → (top.end_thread : Run _ (Event OUT CB SOURCE)).state.end_latch_
      = top.end_latch_) ∧
    (c = 1 → top.end_fn_ = EndFn.default_end →
      (top.end_thread : Run _ (Event OUT CB SOURCE)).state.end_latch_
        = countdown_latch.count_down top.end_latch_) := by
  have hcount : top.count_ - 1 = ((c - 1 : Nat) : Int) := by omega
  by_cases h1 : c = 1
  · have h0 : top.count_ - 1 = 0 := by omega
    rcases hE h1 with hd | ⟨cb, hu⟩
    · rw [RunnablePipeline.end_thread_last_default top h0 hd]
      refine ⟨rfl, hcount, rfl, rfl, rfl, ?_, fun h => absurd h1 h, fun _ _ => rfl⟩
      rw [if_pos h1]; rfl
    · rw [RunnablePipeline.end_thread_last_user top cb h0 hu]
      refine ⟨rfl, hcount, rfl, rfl, rfl, ?_, fun h => absurd h1 h, fun _ hd => ?_⟩
      · rw [if_pos h1]; rfl
      · rw [hu] at hd; cases hd
  · have h0 : top.count_ - 1 ≠ 0 := by omega
    rw [RunnablePipeline.end_thread_pending top h0]
    refine ⟨rfl, hcount, rfl, rfl, rfl, ?_, fun _ => rfl, fun h => absurd h h1⟩
    rw [if_neg h1]; rfl

/-- One child finishes: its task runs to the end of `run_internal`. -/
theorem RunnablePipeline.run_task_child (ops : SourceOps SOURCE IN) (fuel : Nat)
    (top : RunnablePipeline IN OUT SOURCE CB) (f : Task) (c : Nat)
    (hready : ReadyChild ops fuel top f) (hc : top.count_ = (c : Int)) (hpos : 0 < c)
    (hE : c = 1 → top.end_fn_ = EndFn.default_end ∨ ∃ cb, top.end_fn_ = EndFn.user cb) :
    (RunnablePipeline.run_task ops fuel f top).status = Status.returned ∧
    (RunnablePipeline.run_task ops fuel f top).state.count_ = ((c - 1 : Nat) : Int) ∧
    (RunnablePipeline.run_task ops fuel f top).state.end_fn_ = top.end_fn_ ∧
    (RunnablePipeline.run_task ops fuel f top).state.source_ = top.source_ ∧
    completions (RunnablePipeline.run_task ops fuel f top).trace = (if c = 1 then 1 else 0) ∧
    (c ≠ 1 → (RunnablePipeline.run_task ops fuel f top).state.end_latch_ = top.end_latch_) ∧
    (c = 1 → top.end_fn_ = EndFn.default_end →
      (RunnablePipeline.run_task ops fuel f top).state.end_latch_
        = countdown_latch.count_down top.end_latch_) ∧
    (∀ g, g ≠ f → ReadyChild ops fuel top g →
      ReadyChild ops fuel (RunnablePipeline.run_task ops fuel f top).state g) := by
  obtain ⟨i, o, hf, ho, he, hloop⟩ := hready
  obtain ⟨h1, h2, h3, h4, h5, h6, h7, h8⟩ := RunnablePipeline.end_thread_counts
    ({ top with children_ := (top.children_.set i
        ({ o with source_ := (driver_loop ops o.consumer_ fuel o.source_ :
            Run SOURCE (Event OUT CB SOURCE)).state })) }) c hc hpos hE
  unfold RunnablePipeline.run_task
  rw [hf, RunnablePipeline.run_internal_child ops fuel top i o ho he hloop]
  refine ⟨h1, h2, h3, h4, ?_, h7, h8, ?_⟩
  · show completions (_ ++ _) = _
    rw [completions_append, driver_loop_completions, Nat.zero_add]
    exact h6
  · rintro g hg ⟨j, q, hgj, hq, hqe, hql⟩
    have hij : i ≠ j := by
      intro hij
      apply hg
      cases f; cases g
      simp only at hf hgj
      rw [hf, hgj, hij]
    refine ⟨j, q, hgj, ?_, hqe, hql⟩
    show (RunnablePipeline.end_thread _ : Run _ (Event OUT CB SOURCE)).state.children_[j]? = _
    rw [h5]
    show (top.children_.set i _)[j]? = _
    rw [List.getElem?_set_ne hij]
    exact hq

theorem run_tasks_cons_returned (ops : SourceOps SOURCE IN) (fuel : Nat) (f : Task)
    (rest : List Task) (top : RunnablePipeline IN OUT SOURCE CB)
    (h : (RunnablePipeline.run_task ops fuel f top).status = Status.returned) :
    run_tasks ops fuel (f :: rest) top =
      { status := (run_tasks ops fuel rest (RunnablePipeline.run_task ops fuel f top).state).status,
        state := (run_tasks ops fuel rest (RunnablePipeline.run_task ops fuel f top).state).state,
        trace := (RunnablePipeline.run_task ops fuel f top).trace ++
          (run_tasks ops fuel rest (RunnablePipeline.run_task ops fuel f top).state).trace } := by
  rw [run_tasks]
  simp only [h]

/-- Children finishing one after the other, in any order without repetition:
after `j` of them on a parent whose counter started at `c >= j`, the counter
is `c - j` and the completion callback has been invoked once if `j = c` and
not at all otherwise.  The callback has to be the default one or a user
callback only when it is reached. -/
theorem run_tasks_children (ops : SourceOps SOURCE IN) (fuel : Nat) (tasks : List Task) :
    ∀ (top : RunnablePipeline IN OUT SOURCE CB) (c : Nat), tasks.Nodup →
      (∀ f ∈ tasks, ReadyChild ops fuel top f) → top.count_ = (c : Int) → 0 < c →
      tasks.length ≤ c →
      (tasks.length = c →
        top.end_fn_ = EndFn.default_end ∨ ∃ cb, top.end_fn_ = EndFn.user cb) →
      (run_tasks ops fuel tasks top).status = Status.returned ∧
      (run_tasks ops fuel tasks top).state.count_ = ((c - tasks.length : Nat) : Int) ∧
      completions (run_tasks ops fuel tasks top).trace = (if tasks.length = c then 1 else 0) ∧
      (run_tasks ops fuel tasks top).state.source_ = top.source_ ∧
      (tasks.length < c → (run_tasks ops fuel tasks top).state.end_latch_ = top.end_latch_) ∧
      (tasks.length = c → top.end_fn_ = EndFn.default_end →
        (run_tasks ops fuel tasks top).state.end_latch_
          = countdown_latch.count_down top.end_latch_) := by
  induction tasks with
  | nil =>
    intro top c _ _ hc hpos _ _
    have hne : ¬ (0 = c) := by omega
    refine ⟨rfl, ?_, ?_, rfl, fun _ => rfl, fun h => absurd h hne⟩
    · simpa [run_tasks] using hc
    · simp only [run_tasks, List.length_nil, hne, if_false]
      rfl
  | cons f rest ih =>
    intro top c hnodup hready hc hpos hlen hE
    obtain ⟨hfr, hrest⟩ := List.nodup_cons.mp hnodup
    have hE1 : c = 1 → top.end_fn_ = EndFn.default_end ∨ ∃ cb, top.end_fn_ = EndFn.user cb := by
      intro h1
      refine hE ?_
      simp only [List.length_cons] at hlen ⊢
      omega
    obtain ⟨s1, s2, s3, s4, s5, s6, s7, s8⟩ := RunnablePipeline.run_task_child ops fuel top f c
      (hready f (List.mem_cons_self _ _)) hc hpos hE1
    rw [run_tasks_cons_returned ops fuel f rest top s1]
    simp only [List.length_cons] at hlen ⊢
    by_cases h1 : c = 1
    · have hnil : rest = [] := List.length_eq_zero.mp (by omega)
      subst hnil
      subst h1
      refine ⟨rfl, ?_, ?_, s4, fun h => absurd h (by simp), fun _ hd => s7 rfl hd⟩
      · simpa [run_tasks] using s2
      · simp only [run_tasks, List.append_nil, List.length_nil]
        simpa using s5
    · have hready1 : ∀ g ∈ rest,
          ReadyChild ops fuel (RunnablePipeline.run_task ops fuel f top).state g := by
        intro g hg
        refine s8 g ?_ (hready g (List.mem_cons_of_mem _ hg))
        intro hgf
        exact hfr (hgf ▸ hg)
      obtain ⟨t1, t2, t3, t4, t5, t6⟩ := ih (RunnablePipeline.run_task ops fuel f top).state
        (c - 1) hrest hready1 s2 (by omega) (by omega)
        (fun h => s3 ▸ hE (by simp only [List.length_cons]; omega))
      refine ⟨t1, ?_, ?_, t4.trans s4, ?_, ?_⟩
      · rw [t2]; congr 1; omega
      · show completions (_ ++ _) = _
        rw [completions_append, s5, t3, if_neg h1, Nat.zero_add]
        by_cases h2 : rest.length = c - 1
        · rw [if_pos h2, if_pos (by omega)]
        · rw [if_neg h2, if_neg (by omega)]
      · intro hlt
        rw [t5 (by omega), s6 h1]
      · intro heq hd
        rw [t6 (by omega) (s3.trans hd), s6 h1]

/-! ## Exactly-once completion of a parallel run -/

theorem RunnablePipeline.run_pool_parallel_accepting (r : RunnablePipeline IN OUT SOURCE CB)
    (n : Nat) (hn : 0 < n) (pool : simple_thread_pool) (ws rest : List mutable_thread)
    (hpool : pool.unused = ws ++ rest) (hlen : ws.length = n)
    (hacc : ∀ w ∈ ws, w.accepts = true) :
    ((r.Parallel n).run_pool pool : Run (PoolState IN OUT SOURCE CB) (Event OUT CB SOURCE)) =
      { status := Status.returned,
        state :=
          { self := { r.Parallel n with
              count_ := n, children_ := List.replicate n (r.Parallel n).new_child },
            pool := { unused := rest },
            submitted := dispatch 0 ws },
        trace := [] } := by
  obtain ⟨hP1, hP2, -⟩ := r.Parallel_fields n
  rw [RunnablePipeline.run_pool_positive _ n hn hP1,
    RunnablePipeline.run_pool_loop_accepting n _ ws rest hpool hlen hacc]
  simp only [hP2, List.nil_append, List.length_nil]
  rfl

theorem RunnablePipeline.run_pool_parallel_failing (r : RunnablePipeline IN OUT SOURCE CB)
    (n i : Nat) (hi : i < n) (pool : simple_thread_pool) (ws tail : List mutable_thread)
    (hpool : pool.unused = ws ++ tail) (hlen : ws.length = i)
    (hacc : ∀ w ∈ ws, w.accepts = true)
    (hfail : tail = [] ∨ ∃ t rest, tail = t :: rest ∧ t.accepts = false) :
    ∃ m rest,
      ((r.Parallel n).run_pool pool : Run (PoolState IN OUT SOURCE CB) (Event OUT CB SOURCE)) =
        { status := Status.threw Exn.std_exception,
          state :=
            { self := { r.Parallel n with
                count_ := n, children_ := List.replicate m (r.Parallel n).new_child },
              pool := { unused := rest },
              submitted := dispatch 0 ws },
          trace := [] } ∧ i ≤ m := by
  obtain ⟨hP1, hP2, -⟩ := r.Parallel_fields n
  rcases hfail with hnil | ⟨t, rest, hcons, ht⟩
  · refine ⟨i, [], ?_, Nat.le_refl _⟩
    subst hnil
    rw [List.append_nil] at hpool
    rw [RunnablePipeline.run_pool_positive _ n (by omega) hP1,
      RunnablePipeline.run_pool_loop_exhausted n _ ws hpool (by omega) hacc]
    simp only [hP2, List.nil_append, List.length_nil, hlen]
    rfl
  · refine ⟨i + 1, rest, ?_, Nat.le_succ _⟩
    subst hcons
    rw [RunnablePipeline.run_pool_positive _ n (by omega) hP1,
      RunnablePipeline.run_pool_loop_rejected n _ ws t rest hpool ht (by omega) hacc]
    simp only [hP2, List.nil_append, List.length_nil, hlen]
    rfl

theorem child_tasks_nodup (base k : Nat) :
    ((List.range' base k).map (fun i => ({ target := Target.child i } : Task))).Nodup := by
  refine List.Nodup.map ?_ (List.nodup_range' base k)
  intro a b hab
  simp only [Task.mk.injEq, Target.child.injEq] at hab
  exact hab

/-- The tasks of the children `0, ..., k - 1` of a parent whose children are
`m >= k` copies of a child bound to `end_thread` whose driver loop returns. -/
theorem child_tasks_ready (ops : SourceOps SOURCE IN) (fuel : Nat)
    (top ch : RunnablePipeline IN OUT SOURCE CB) (m k : Nat) (hk : k ≤ m)
    (hch : top.children_ = List.replicate m ch) (he : ch.end_fn_ = EndFn.end_thread)
    (hloop : (driver_loop ops ch.consumer_ fuel ch.source_ :
      Run SOURCE (Event OUT CB SOURCE)).status = Status.returned) :
    ∀ f ∈ (List.range' 0 k).map (fun i => ({ target := Target.child i } : Task)),
      ReadyChild ops fuel top f := by
  intro f hf
  obtain ⟨i, hi, rfl⟩ := List.mem_map.mp hf
  have hik : i < k := by simpa using (List.mem_range'_1.mp hi).2
  refine ⟨i, ch, rfl, ?_, he, hloop⟩
  rw [hch, List.getElem?_replicate_of_lt (by omega)]

/-- C2: for `n >= 1`, after `run(pool)` on `r.Parallel(n)` with a pool whose
first `n` idle workers accept their task, let the submitted tasks finish in any
order (each child's driver loop returns, which ends in the child's `end_fn_`,
the parent's `end_thread`).  After the first `j <= n` children have finished
the shared counter, initialised to `n`, is `n - j`, and the parent's completion
callback (the default latch count down, or the `OnEnd` callback) has been
invoked once if `j = n` and not at all if `j < n`: it is invoked by the n-th
call of `end_thread`, exactly once.  With the default callback the latch goes
from 1 to 0 at that moment. -/
theorem RunnablePipeline.parallel_run_completes_once (r : RunnablePipeline IN OUT SOURCE CB)
    (n : Nat) (hn : 1 ≤ n) (pool : simple_thread_pool) (ws rest : List mutable_thread)
    (hpool : pool.unused = ws ++ rest) (hlen : ws.length = n)
    (hacc : ∀ w ∈ ws, w.accepts = true)
    (hcb : r.default_end_ = true ∨ ∃ cb, r.end_fn_ = EndFn.user cb)
    (ops : SourceOps SOURCE IN) (fuel : Nat)
    (hloop : (driver_loop ops r.consumer_ fuel r.source_ :
      Run SOURCE (Event OUT CB SOURCE)).status = Status.returned)
    (order : List Task)
    (horder : order.Perm (((r.Parallel n).run_pool pool :
      Run (PoolState IN OUT SOURCE CB) (Event OUT CB SOURCE)).state.submitted.map Prod.snd))
    (j : Nat) (hj : j ≤ n) :
    ((r.Parallel n).run_pool pool :
      Run (PoolState IN OUT SOURCE CB) (Event OUT CB SOURCE)).status = Status.returned ∧
    ((r.Parallel n).run_pool pool :
      Run (PoolState IN OUT SOURCE CB) (Event OUT CB SOURCE)).state.self.count_ = n ∧
    (run_tasks ops fuel (order.take j) ((r.Parallel n).run_pool pool :
      Run (PoolState IN OUT SOURCE CB) (Event OUT CB SOURCE)).state.self).status
      = Status.returned ∧
    (run_tasks ops fuel (order.take j) ((r.Parallel n).run_pool pool :
      Run (PoolState IN OUT SOURCE CB) (Event OUT CB SOURCE)).state.self).state.count_
      = ((n - j : Nat) : Int) ∧
    completions (run_tasks ops fuel (order.take j) ((r.Parallel n).run_pool pool :
      Run (PoolState IN OUT SOURCE CB) (Event OUT CB SOURCE)).state.self).trace
      = (if j = n then 1 else 0) ∧
    (r.default_end_ = true →
      (run_tasks ops fuel (order.take j) ((r.Parallel n).run_pool pool :
        Run (PoolState IN OUT SOURCE CB) (Event OUT CB SOURCE)).state.self).state.end_latch_
        = (if j = n then 0 else 1)) := by
  obtain ⟨-, -, hP3, hP4, -, hP6, hP7⟩ := r.Parallel_fields n
  obtain ⟨-, -, hC3, hC4, -, hC6⟩ := (r.Parallel n).new_child_fields
  rw [RunnablePipeline.run_pool_parallel_accepting r n (by omega) pool ws rest hpool hlen hacc]
    at horder ⊢
  simp only at horder ⊢
  rw [dispatch_tasks, hlen] at horder
  have hloop1 : (driver_loop ops (r.Parallel n).new_child.consumer_ fuel
      (r.Parallel n).new_child.source_ : Run SOURCE (Event OUT CB SOURCE)).status
      = Status.returned := by
    rw [hC3, hC4, hP3, hP4]; exact hloop
  have hnodup : order.Nodup := horder.nodup_iff.mpr (child_tasks_nodup 0 n)
  have hordlen : order.length = n := by
    rw [horder.length_eq, List.length_map, List.length_range']
  have htake : (order.take j).length = j := by
    rw [List.length_take, hordlen]; omega
  have hE : (r.Parallel n).end_fn_ = EndFn.default_end ∨
      ∃ cb, (r.Parallel n).end_fn_ = EndFn.user cb := by
    rw [hP7]
    cases hd : r.default_end_
    · rcases hcb with h | ⟨cb, h⟩
      · rw [hd] at h; cases h
      · exact Or.inr ⟨cb, by simpa using h⟩
    · exact Or.inl (by simp)
  obtain ⟨t1, t2, t3, -, t5, t6⟩ := run_tasks_children ops fuel (order.take j)
    ({ r.Parallel n with
        count_ := n, children_ := List.replicate n (r.Parallel n).new_child })
    n ((List.take_sublist j order).nodup hnodup)
    (fun f hf => child_tasks_ready ops fuel _ (r.Parallel n).new_child n n (Nat.le_refl _) rfl
      hC6 hloop1 f (horder.mem_iff.mp (List.mem_of_mem_take hf)))
    rfl (by omega) (by omega) (fun _ => hE)
  rw [htake] at t2 t3 t5 t6
  refine ⟨trivial, trivial, t1, t2, t3, ?_⟩
  intro hd
  by_cases hjn : j = n
  · rw [if_pos hjn, t6 hjn (by rw [hP7, hd]; rfl)]
    show countdown_latch.count_down (r.Parallel n).end_latch_ = 0
    rw [hP6]; rfl
  · rw [if_neg hjn, t5 (by omega)]
    exact hP6

/-- Witness for C2: `Parallel(2)` of the sample pipeline on three willing
workers, child 1 finishing before child 0. -/
theorem RunnablePipeline.parallel_run_completes_once_witness :
    (1 ≤ 2) ∧ sample_pipeline.default_end_ = true ∧
    (driver_loop list_source sample_pipeline.consumer_ 4 sample_pipeline.source_ :
      Run (List Nat) (Event Nat Unit (List Nat))).status = Status.returned ∧
    completions (run_tasks list_source 4
      ([({ target := Target.child 1 } : Task), { target := Target.child 0 }].take 2)
      ((sample_pipeline.Parallel 2).run_pool (willing_pool 3) :
        Run (PoolState Nat Nat (List Nat) Unit) (Event Nat Unit (List Nat))).state.self).trace
      = (if 2 = 2 then 1 else 0) :=
  ⟨by decide, rfl, rfl,
   (RunnablePipeline.parallel_run_completes_once sample_pipeline 2 (by decide) (willing_pool 3)
      [{ id := 0, accepts := true }, { id := 1, accepts := true }]
      [{ id := 2, accepts := true }] rfl rfl (by decide) (Or.inl rfl) list_source 4 rfl
      [{ target := Target.child 1 }, { target := Target.child 0 }]
      (List.Perm.swap _ _ _) 2 (by decide)).2.2.2.2.1⟩

/-- C10: if `run(pool)` on `r.Parallel(n)` fails in iteration `i < n` of its
loop, because after `i` accepting workers the pool is empty or the next worker
rejects its task, then it throws `std::exception` with the counter already set
to `n` and only the children `0, ..., i - 1` dispatched; once all of these have
finished their driver loops, in any order, the counter is `n - i > 0`, the
completion callback has never been invoked, and the parent's latch is still 1. -/
theorem RunnablePipeline.failed_parallel_run_never_completes
    (r : RunnablePipeline IN OUT SOURCE CB) (n i : Nat) (hi : i < n)
    (pool : simple_thread_pool) (ws tail : List mutable_thread)
    (hpool : pool.unused = ws ++ tail) (hlen : ws.length = i)
    (hacc : ∀ w ∈ ws, w.accepts = true)
    (hfail : tail = [] ∨ ∃ t rest, tail = t :: rest ∧ t.accepts = false)
    (ops : SourceOps SOURCE IN) (fuel : Nat)
    (hloop : (driver_loop ops r.consumer_ fuel r.source_ :
      Run SOURCE (Event OUT CB SOURCE)).status = Status.returned)
    (order : List Task)
    (horder : order.Perm (((r.Parallel n).run_pool pool :
      Run (PoolState IN OUT SOURCE CB) (Event OUT CB SOURCE)).state.submitted.map Prod.snd)) :
    ((r.Parallel n).run_pool pool :
      Run (PoolState IN OUT SOURCE CB) (Event OUT CB SOURCE)).status
      = Status.threw Exn.std_exception ∧
    ((r.Parallel n).run_pool pool :
      Run (PoolState IN OUT SOURCE CB) (Event OUT CB SOURCE)).state.self.count_ = n ∧
    ((r.Parallel n).run_pool pool :
      Run (PoolState IN OUT SOURCE CB) (Event OUT CB SOURCE)).state.submitted.map Prod.snd
      = (List.range i).map (fun k => ({ target := Target.child k } : Task)) ∧
    (run_tasks ops fuel order ((r.Parallel n).run_pool pool :
      Run (PoolState IN OUT SOURCE CB) (Event OUT CB SOURCE)).state.self).status
      = Status.returned ∧
    (run_tasks ops fuel order ((r.Parallel n).run_pool pool :
      Run (PoolState IN OUT SOURCE CB) (Event OUT CB SOURCE)).state.self).state.count_
      = ((n - i : Nat) : Int) ∧
    0 < n - i ∧
    completions (run_tasks ops fuel order ((r.Parallel n).run_pool pool :
      Run (PoolState IN OUT SOURCE CB) (Event OUT CB SOURCE)).state.self).trace = 0 ∧
    (run_tasks ops fuel order ((r.Parallel n).run_pool pool :
      Run (PoolState IN OUT SOURCE CB) (Event OUT CB SOURCE)).state.self).state.end_latch_
      = 1 := by
  obtain ⟨-, -, hP3, hP4, -, hP6, -⟩ := r.Parallel_fields n
  obtain ⟨-, -, hC3, hC4, -, hC6⟩ := (r.Parallel n).new_child_fields
  obtain ⟨m, rest, hR, hm⟩ := RunnablePipeline.run_pool_parallel_failing r n i hi pool ws tail
    hpool hlen hacc hfail
  rw [hR] at horder ⊢
  simp only at horder ⊢
  rw [dispatch_tasks, hlen] at horder
  have hloop1 : (driver_loop ops (r.Parallel n).new_child.consumer_ fuel
      (r.Parallel n).new_child.source_ : Run SOURCE (Event OUT CB SOURCE)).status
      = Status.returned := by
    rw [hC3, hC4, hP3, hP4]; exact hloop
  have hnodup : order.Nodup := horder.nodup_iff.mpr (child_tasks_nodup 0 i)
  have hordlen : order.length = i := by
    rw [horder.length_eq, List.length_map, List.length_range']
  obtain ⟨t1, t2, t3, -, t5, -⟩ := run_tasks_children ops fuel order
    ({ r.Parallel n with
        count_ := n, children_ := List.replicate m (r.Parallel n).new_child })
    n hnodup
    (fun f hf => child_tasks_ready ops fuel _ (r.Parallel n).new_child m i hm rfl
      hC6 hloop1 f (horder.mem_iff.mp hf))
    rfl (by omega) (by omega) (fun h => by omega)
  rw [hordlen] at t2 t3 t5
  refine ⟨trivial, trivial, ?_, t1, t2, by omega, ?_, ?_⟩
  · rw [dispatch_tasks, hlen, List.range_eq_range']
  · rw [t3, if_neg (by omega)]
  · rw [t5 hi]
    exact hP6

/-- Witness for C10: `Parallel(3)` of the sample pipeline on a pool whose second
worker rejects its task; the one dispatched child finishes. -/
theorem RunnablePipeline.failed_parallel_run_never_completes_witness :
    (1 < 3) ∧
    ((sample_pipeline.Parallel 3).run_pool
      { unused := [{ id := 0, accepts := true }, { id := 1, accepts := false }] } :
      Run (PoolState Nat Nat (List Nat) Unit) (Event Nat Unit (List Nat))).status
      = Status.threw Exn.std_exception ∧
    (run_tasks list_source 4 [{ target := Target.child 0 }]
      ((sample_pipeline.Parallel 3).run_pool
        { unused := [{ id := 0, accepts := true }, { id := 1, accepts := false }] } :
        Run (PoolState Nat Nat (List Nat) Unit)
          (Event Nat Unit (List Nat))).state.self).state.count_ = ((3 - 1 : Nat) : Int) ∧
    completions (run_tasks list_source 4 [{ target := Target.child 0 }]
      ((sample_pipeline.Parallel 3).run_pool
        { unused := [{ id := 0, accepts := true }, { id := 1, accepts := false }] } :
        Run (PoolState Nat Nat (List Nat) Unit)
          (Event Nat Unit (List Nat))).state.self).trace = 0 :=
  ⟨by decide,
   (RunnablePipeline.failed_parallel_run_never_completes sample_pipeline 3 1 (by decide)
      { unused := [{ id := 0, accepts := true }, { id := 1, accepts := false }] }
      [{ id := 0, accepts := true }] [{ id := 1, accepts := false }] rfl rfl (by decide)
      (Or.inr ⟨_, _, rfl, rfl⟩) list_source 4 rfl [{ target := Target.child 0 }]
      (List.Perm.refl _)).1,
   (RunnablePipeline.failed_parallel_run_never_completes sample_pipeline 3 1 (by decide)
      { unused := [{ id := 0, accepts := true }, { id := 1, accepts := false }] }
      [{ id := 0, accepts := true }] [{ id := 1, accepts := false }] rfl rfl (by decide)
      (Or.inr ⟨_, _, rfl, rfl⟩) list_source 4 rfl [{ target := Target.child 0 }]
      (List.Perm.refl _)).2.2.2.2.1,
   (RunnablePipeline.failed_parallel_run_never_completes sample_pipeline 3 1 (by decide)
      { unused := [{ id := 0, accepts := true }, { id := 1, accepts := false }] }
      [{ id := 0, accepts := true }] [{ id := 1, accepts := false }] rfl rfl (by decide)
      (Or.inr ⟨_, _, rfl, rfl⟩) list_source 4 rfl [{ target := Target.child 0 }]
      (List.Perm.refl _)).2.2.2.2.2.2.1⟩

end gcl
